import Mathlib

/-!
Verification of the APU ("ASCII Processing Unit") terminal display server.

The definitions below are a shallow embedding of the Rust sources of the
repository (src/core/cell.rs, src/core/grid.rs, src/core/window.rs,
src/input.rs, src/server.rs, src/renderer/ansi_ibm.rs, src/terminal.rs).
Machine bytes are modelled as Nat values (callers only ever feed values
below 256); usize arithmetic uses Nat with truncated subtraction where the
source uses saturating_sub, and codepoints are Nat values.
-/

namespace APU

/-! ## Colors, attributes and cells (src/core/cell.rs) -/

/-- Color enum of cell.rs: the 16-entry ANSI palette. -/
inductive Color where
  | black | red | green | yellow | blue | magenta | cyan | white
  | brightBlack | brightRed | brightGreen | brightYellow
  | brightBlue | brightMagenta | brightCyan | brightWhite
  deriving DecidableEq, Repr

/-- Numeric value of a Color (the repr(u8) discriminant). -/
def Color.toNat : Color → Nat
  | .black => 0 | .red => 1 | .green => 2 | .yellow => 3
  | .blue => 4 | .magenta => 5 | .cyan => 6 | .white => 7
  | .brightBlack => 8 | .brightRed => 9 | .brightGreen => 10
  | .brightYellow => 11 | .brightBlue => 12 | .brightMagenta => 13
  | .brightCyan => 14 | .brightWhite => 15

/-- From u8 for Color: values 0..15 map to the palette, everything else to White. -/
def Color.fromNat (v : Nat) : Color :=
  if v = 0 then .black else if v = 1 then .red else if v = 2 then .green
  else if v = 3 then .yellow else if v = 4 then .blue else if v = 5 then .magenta
  else if v = 6 then .cyan else if v = 7 then .white else if v = 8 then .brightBlack
  else if v = 9 then .brightRed else if v = 10 then .brightGreen
  else if v = 11 then .brightYellow else if v = 12 then .brightBlue
  else if v = 13 then .brightMagenta else if v = 14 then .brightCyan
  else if v = 15 then .brightWhite else .white

/-- Color::fg_code — ANSI SGR code for a foreground color. -/
def Color.fgCode (c : Color) : Nat :=
  if c.toNat < 8 then 30 + c.toNat else 90 + (c.toNat - 8)

/-- Color::bg_code — ANSI SGR code for a background color. -/
def Color.bgCode (c : Color) : Nat :=
  if c.toNat < 8 then 40 + c.toNat else 100 + (c.toNat - 8)

/-- Attrs struct of cell.rs. -/
structure Attrs where
  bold : Bool := false
  dim : Bool := false
  italic : Bool := false
  underline : Bool := false
  blink : Bool := false
  reverse : Bool := false
  deriving DecidableEq, Repr

/-- Attrs::sgr_codes — ANSI SGR codes for the set attributes, in code order. -/
def Attrs.sgrCodes (a : Attrs) : List Nat :=
  (if a.bold then [1] else []) ++ (if a.dim then [2] else [])
  ++ (if a.italic then [3] else []) ++ (if a.underline then [4] else [])
  ++ (if a.blink then [5] else []) ++ (if a.reverse then [7] else [])

/-- Cell struct of cell.rs; the char field holds the Unicode codepoint. -/
structure Cell where
  char : Nat
  fg : Color
  bg : Color
  attrs : Attrs
  dirty : Bool
  deriving DecidableEq, Repr

/-- Default cell: space, White on Black, no attrs, dirty. -/
def Cell.default : Cell :=
  { char := 32, fg := .white, bg := .black, attrs := {}, dirty := true }

/-- Cell::set_char — update the character, marking dirty only on change. -/
def Cell.setChar (c : Cell) (ch : Nat) : Cell :=
  if c.char ≠ ch then { c with char := ch, dirty := true } else c

/-- Cell::set_fg — update the foreground, marking dirty only on change. -/
def Cell.setFg (c : Cell) (fg : Color) : Cell :=
  if c.fg ≠ fg then { c with fg := fg, dirty := true } else c

/-- Cell::set_bg — update the background, marking dirty only on change. -/
def Cell.setBg (c : Cell) (bg : Color) : Cell :=
  if c.bg ≠ bg then { c with bg := bg, dirty := true } else c

/-- Cell::set — update all value fields, marking dirty only if some field changed. -/
def Cell.setAll (c : Cell) (ch : Nat) (fg bg : Color) (attrs : Attrs) : Cell :=
  if c.char ≠ ch ∨ c.fg ≠ fg ∨ c.bg ≠ bg ∨ c.attrs ≠ attrs then
    { c with char := ch, fg := fg, bg := bg, attrs := attrs, dirty := true }
  else c

/-- One call to a Cell mutator. -/
inductive CellMut where
  | setChar (ch : Nat)
  | setFg (fg : Color)
  | setBg (bg : Color)
  | set (ch : Nat) (fg bg : Color) (attrs : Attrs)
  deriving DecidableEq, Repr

/-- Apply one mutator call to a cell. -/
def applyMut (c : Cell) : CellMut → Cell
  | .setChar ch => c.setChar ch
  | .setFg fg => c.setFg fg
  | .setBg bg => c.setBg bg
  | .set ch fg bg attrs => c.setAll ch fg bg attrs

/-- Apply a sequence of mutator calls to a cell, in order. -/
def applyMuts (c : Cell) : List CellMut → Cell
  | [] => c
  | m :: ms => applyMuts (applyMut c m) ms

/-- Whether one mutator call, applied to this cell, observes a value change
(the condition under which the source sets the dirty flag). -/
def mutChanges (c : Cell) : CellMut → Bool
  | .setChar ch => c.char ≠ ch
  | .setFg fg => c.fg ≠ fg
  | .setBg bg => c.bg ≠ bg
  | .set ch fg bg attrs => c.char ≠ ch ∨ c.fg ≠ fg ∨ c.bg ≠ bg ∨ c.attrs ≠ attrs

/-- Whether some call in the sequence observes a value change when the
sequence is applied in order starting from this cell. -/
def observedChange (c : Cell) : List CellMut → Bool
  | [] => false
  | m :: ms => mutChanges c m || observedChange (applyMut c m) ms

/-! ## Telnet client-side filter (src/server.rs, filter_telnet_commands) -/

/-- Subnegotiation skip loop of filter_telnet_commands: drop bytes until an
IAC SE pair (inclusive); a lone trailing IAC is also dropped. -/
def skipSubneg : List Nat → List Nat
  | [] => []
  | 255 :: 240 :: rest => rest
  | _ :: rest => skipSubneg rest

/-- Body of filter_telnet_commands (server.rs): strip IAC option sequences
and subnegotiations; IAC IAC yields one literal 255; a trailing lone IAC is
passed through. -/
def filterTelnet : List Nat → List Nat
  | [] => []
  | b :: rest =>
    if b = 255 then
      match rest with
      | [] => [255]
      | cmd :: rest2 =>
        if cmd = 251 ∨ cmd = 252 ∨ cmd = 253 ∨ cmd = 254 then
          -- 3-byte sequence IAC cmd option
          filterTelnet (rest2.drop 1)
        else if cmd = 250 then
          -- subnegotiation: skip until IAC SE
          filterTelnet (skipSubneg rest2)
        else if cmd = 255 then
          255 :: filterTelnet rest2
        else
          -- other 2-byte command
          filterTelnet rest2
    else b :: filterTelnet rest
termination_by l => l.length
decreasing_by
  all_goals simp_all
  · have h1 := List.length_drop 1 rest2
    omega
  · have h1 : (skipSubneg rest2).length ≤ rest2.length := by
      induction rest2 using skipSubneg.induct <;> simp_all [skipSubneg] <;> omega
    omega
  · omega
  · omega

/-! ## Grid (src/core/grid.rs) -/

/-- Grid struct: a row-major 2D cell buffer. -/
structure Grid where
  cols : Nat
  rows : Nat
  cells : List Cell
  deriving DecidableEq, Repr

/-- Grid::new — all cells default. -/
def Grid.new (cols rows : Nat) : Grid :=
  { cols := cols, rows := rows, cells := List.replicate (cols * rows) Cell.default }

/-- Grid::index — row-major index, None when out of bounds. -/
def Grid.index (g : Grid) (x y : Nat) : Option Nat :=
  if x < g.cols ∧ y < g.rows then some (y * g.cols + x) else none

/-- Grid::get — bounds-checked cell read. -/
def Grid.get (g : Grid) (x y : Nat) : Option Cell :=
  (g.index x y).bind fun i => g.cells.get? i

/-- Grid::set — bounds-checked Cell::set (no-op on miss). -/
def Grid.set (g : Grid) (x y : Nat) (ch : Nat) (fg bg : Color) (attrs : Attrs) : Grid :=
  match g.index x y with
  | some i => { g with cells := g.cells.set i ((g.cells.getD i Cell.default).setAll ch fg bg attrs) }
  | none => g

/-- Grid::write_str — write codepoints left to right, stopping at the right edge. -/
def Grid.writeStr (g : Grid) (x y : Nat) (s : List Nat) (fg bg : Color) (attrs : Attrs) : Grid :=
  go g x s
where
  go (g : Grid) (px : Nat) : List Nat → Grid
    | [] => g
    | ch :: rest => if px ≥ g.cols then g else go (g.set px y ch fg bg attrs) (px + 1) rest

/-- Grid::resize — contents are discarded. -/
def Grid.resize (g : Grid) (cols rows : Nat) : Grid :=
  { g with cols := cols, rows := rows, cells := List.replicate (cols * rows) Cell.default }

/-- Fold a function over the index range a..b (exclusive), as a Rust for loop. -/
def foldRange (a b : Nat) (f : Grid → Nat → Grid) (g : Grid) : Grid :=
  (List.range (b - a)).foldl (fun g i => f g (a + i)) g

/-! ## UTF-8 byte lengths (Rust String semantics, for window titles) -/

/-- Byte length of the UTF-8 encoding of one codepoint. -/
def utf8Width (cp : Nat) : Nat :=
  if cp < 0x80 then 1 else if cp < 0x800 then 2 else if cp < 0x10000 then 3 else 4

/-- Rust String::len — byte length of the UTF-8 encoding. -/
def utf8Len (s : List Nat) : Nat :=
  (s.map utf8Width).sum

/-- Rust byte slicing s[..k]: Some prefix when k lands on a character
boundary, None when the slice would split a character (a panic in Rust). -/
def byteSlicePrefix : List Nat → Nat → Option (List Nat)
  | _, 0 => some []
  | [], _ + 1 => none
  | c :: rest, k + 1 =>
    if h : utf8Width c ≤ k + 1 then
      (byteSlicePrefix rest (k + 1 - utf8Width c)).map (c :: ·)
    else none

/-! ## Window (src/core/window.rs) -/

/-- BorderStyle enum. -/
inductive BorderStyle where
  | noBorder | single | double | rounded | heavy | ascii
  deriving DecidableEq, Repr

/-- BorderStyle::has_border. -/
def BorderStyle.hasBorder : BorderStyle → Bool
  | .noBorder => false
  | _ => true

/-- Box drawing characters (codepoints) of a border style. -/
structure BoxChars where
  tl : Nat
  tr : Nat
  bl : Nat
  br : Nat
  h : Nat
  v : Nat
  deriving DecidableEq, Repr

/-- BorderStyle::chars — box character set, None for the borderless style. -/
def BorderStyle.boxChars : BorderStyle → Option BoxChars
  | .noBorder => none
  | .single => some ⟨('┌').toNat, ('┐').toNat, ('└').toNat, ('┘').toNat, ('─').toNat, ('│').toNat⟩
  | .double => some ⟨('╔').toNat, ('╗').toNat, ('╚').toNat, ('╝').toNat, ('═').toNat, ('║').toNat⟩
  | .rounded => some ⟨('╭').toNat, ('╮').toNat, ('╰').toNat, ('╯').toNat, ('─').toNat, ('│').toNat⟩
  | .heavy => some ⟨('┏').toNat, ('┓').toNat, ('┗').toNat, ('┛').toNat, ('━').toNat, ('┃').toNat⟩
  | .ascii => some ⟨('+').toNat, ('+').toNat, ('+').toNat, ('+').toNat, ('-').toNat, ('|').toNat⟩

/-- TitleAlign enum. -/
inductive TitleAlign where
  | left | center | right
  deriving DecidableEq, Repr

/-- Window struct; the title is stored as a list of codepoints. -/
structure Window where
  id : String
  x : Nat
  y : Nat
  width : Nat
  height : Nat
  border : BorderStyle
  borderColor : Color
  title : Option (List Nat)
  titleAlign : TitleAlign
  background : Color
  visible : Bool
  zIndex : Int
  content : Grid
  dirty : Bool
  closable : Bool
  resizable : Bool
  draggable : Bool
  minWidth : Nat
  minHeight : Nat
  invert : Bool
  deriving DecidableEq, Repr

/-- Window::content_size — inner dimensions given total size and border
(saturating subtraction of 2 when bordered). -/
def Window.contentSize (width height : Nat) (border : BorderStyle) : Nat × Nat :=
  if border.hasBorder then (width - 2, height - 2) else (width, height)

/-- Window::new — defaults: Single border, visible, closable, resizable,
draggable, min size 10 by 5, no invert. -/
def Window.new (id : String) (x y width height : Nat) : Window :=
  let border := BorderStyle.single
  let cs := Window.contentSize width height border
  { id := id, x := x, y := y, width := width, height := height
    border := border, borderColor := .white, title := none
    titleAlign := .center, background := .black, visible := true
    zIndex := 0, content := Grid.new cs.1 cs.2, dirty := true
    closable := true, resizable := true, draggable := true
    minWidth := 10, minHeight := 5, invert := false }

/-- Window::set_border — resize content to match the new border (no-op when
the style is unchanged). -/
def Window.setBorder (w : Window) (border : BorderStyle) : Window :=
  if w.border ≠ border then
    let cs := Window.contentSize w.width w.height border
    { w with border := border, content := w.content.resize cs.1 cs.2, dirty := true }
  else w

/-- Window::resize — set the total size and resize the content grid. -/
def Window.resize (w : Window) (width height : Nat) : Window :=
  let cs := Window.contentSize width height w.border
  { w with width := width, height := height
           content := w.content.resize cs.1 cs.2, dirty := true }

/-- Window::set — write one content cell (background defaulted). -/
def Window.setCont (w : Window) (x y ch : Nat) (fg : Color) (bg : Option Color) : Window :=
  { w with content := w.content.set x y ch fg (bg.getD w.background) {}, dirty := true }

/-- Window::content_offset. -/
def Window.contentOffset (w : Window) : Nat × Nat :=
  if w.border.hasBorder then (1, 1) else (0, 0)

/-- Title truncation of Window::render_to: when the byte length exceeds
max_len, byte-slice at max_len - 1 and append an ellipsis. The slice is
None — a Rust panic — when the cut splits a multibyte character. -/
def displayTitle (t : List Nat) (maxLen : Nat) : Option (List Nat) :=
  if utf8Len t > maxLen then (byteSlicePrefix t (maxLen - 1)).map (· ++ [0x2026])
  else some t

/-- Invert pass of Window::render_to: swap fg and bg of every target cell
under the window rectangle. -/
def Window.invertPass (w : Window) (g : Grid) : Grid :=
  (List.range w.height).foldl (fun g dy =>
    (List.range w.width).foldl (fun g dx =>
      let tx := w.x + dx
      let ty := w.y + dy
      if tx < g.cols ∧ ty < g.rows then
        match g.get tx ty with
        | some cell => g.set tx ty cell.char cell.bg cell.fg cell.attrs
        | none => g
      else g) g) g

/-- Border, close-button, title and resize-handle drawing of
Window::render_to. Index arithmetic (x + width - 1 and the like) is Nat
truncated; the title path can fail (panic) on a multibyte truncation. -/
def Window.drawChrome (w : Window) (bc : BoxChars) (target : Grid) : Option Grid :=
  let a : Attrs := {}
  let g := target.set w.x w.y bc.tl w.borderColor w.background a
  let g := g.set (w.x + w.width - 1) w.y bc.tr w.borderColor w.background a
  let g := g.set w.x (w.y + w.height - 1) bc.bl w.borderColor w.background a
  let g := g.set (w.x + w.width - 1) (w.y + w.height - 1) bc.br w.borderColor w.background a
  let g := foldRange 1 (w.width - 1) (fun g dx => g.set (w.x + dx) w.y bc.h w.borderColor w.background a) g
  let g := foldRange 1 (w.width - 1)
    (fun g dx => g.set (w.x + dx) (w.y + w.height - 1) bc.h w.borderColor w.background a) g
  let g := foldRange 1 (w.height - 1)
    (fun g dy =>
      let g := g.set w.x (w.y + dy) bc.v w.borderColor w.background a
      g.set (w.x + w.width - 1) (w.y + dy) bc.v w.borderColor w.background a) g
  let g :=
    if w.closable ∧ w.width ≥ 4 then
      let g := g.set (w.x + 1) w.y ('[').toNat w.borderColor w.background a
      g.set (w.x + 2) w.y (']').toNat w.borderColor w.background a
    else g
  let withTitle : Option Grid :=
    match w.title with
    | none => some g
    | some t =>
      let titleStart := if w.closable then 4 else 2
      let maxLen := w.width - (titleStart + 2)
      (displayTitle t maxLen).map fun dt =>
        let dtLen := utf8Len dt
        let titleX :=
          match w.titleAlign with
          | .left => w.x + titleStart
          | .right => w.x + w.width - 2 - dtLen
          | .center => w.x + titleStart + ((w.width - titleStart) - (dtLen + 2)) / 2
        if titleX > w.x then
          let g := g.set (titleX - 1) w.y ('[').toNat w.borderColor w.background a
          let g := g.writeStr titleX w.y dt .brightWhite w.background { bold := true }
          g.set (titleX + dtLen) w.y (']').toNat w.borderColor w.background a
        else g
  withTitle.map fun g =>
    if w.resizable ∧ w.width ≥ 2 ∧ w.height ≥ 2 then
      g.set (w.x + w.width - 1) (w.y + w.height - 1) ('◢').toNat w.borderColor w.background a
    else g

/-- Content blit of Window::render_to: copy the content grid at the content
offset. -/
def Window.blitContent (w : Window) (g : Grid) : Grid :=
  let off := w.contentOffset
  w.content.cells.enum.foldl
    (fun g p =>
      g.set (w.x + off.1 + p.1 % w.content.cols) (w.y + off.2 + p.1 / w.content.cols)
        p.2.char p.2.fg p.2.bg p.2.attrs) g

/-- Window::render_to — None models a Rust panic (reachable only through
the title truncation path). -/
def Window.renderTo (w : Window) (target : Grid) : Option Grid :=
  if ¬w.visible then some target
  else if w.invert then some (w.invertPass target)
  else
    let afterBorder : Option Grid :=
      match w.border.boxChars with
      | some bc => w.drawChrome bc target
      | none => some target
    afterBorder.map w.blitContent

/-! ## Window manager (src/core/window.rs, WindowManager) -/

/-- WindowManager struct; the id-to-window map is an association list. -/
structure WindowManager where
  cols : Nat
  rows : Nat
  windows : List (String × Window)
  zOrder : List String
  background : Grid
  display : Grid

/-- WindowManager::new. -/
def WindowManager.new (cols rows : Nat) : WindowManager :=
  { cols := cols, rows := rows, windows := [], zOrder := []
    background := Grid.new cols rows, display := Grid.new cols rows }

/-- Replace the window stored under an id (get_mut usage). -/
def WindowManager.updateWindow (wm : WindowManager) (id : String) (f : Window → Window) :
    WindowManager :=
  { wm with windows := wm.windows.map fun p => if p.1 = id then (p.1, f p.2) else p }

/-- Existing-id branch of create_window: move the window, resize only when
the dimensions changed, and mark it dirty. -/
def createWindowUpd (x y width height : Nat) (w : Window) : Window :=
  let w1 := { w with x := x, y := y }
  let w2 := if w1.width ≠ width ∨ w1.height ≠ height then w1.resize width height else w1
  { w2 with dirty := true }

/-- WindowManager::create_window — update position (and, only when
dimensions changed, size) of an existing id, or insert a fresh window. -/
def WindowManager.createWindow (wm : WindowManager) (id : String) (x y width height : Nat) :
    WindowManager :=
  match wm.windows.lookup id with
  | some _ => wm.updateWindow id (createWindowUpd x y width height)
  | none =>
    { wm with windows := wm.windows ++ [(id, Window.new id x y width height)]
              zOrder := wm.zOrder ++ [id] }

/-! ## Input parsing (src/input.rs) -/

/-- Key enum. -/
inductive Key where
  | up | down | left | right | home | endKey | pageUp | pageDown
  | insert | delete | escape | enter | tab | backspace
  | f1 | f2 | f3 | f4 | f5 | f6 | f7 | f8 | f9 | f10 | f11 | f12
  deriving DecidableEq, Repr

/-- MouseButton enum; noButton is the None variant used for motion events. -/
inductive MouseButton where
  | left | middle | right | wheelUp | wheelDown | noButton
  deriving DecidableEq, Repr

/-- MouseEvent enum of input.rs. -/
inductive MouseEventKind where
  | press | release | drag | move
  deriving DecidableEq, Repr

/-- Modifiers struct. -/
structure Modifiers where
  shift : Bool := false
  ctrl : Bool := false
  alt : Bool := false
  deriving DecidableEq, Repr

/-- InputEvent enum; characters are codepoints. -/
inductive InputEvent where
  | char (c : Nat)
  | key (k : Key)
  | mouse (x y : Nat) (button : MouseButton) (event : MouseEventKind) (mods : Modifiers)
  deriving DecidableEq, Repr

/-- Rust unsigned decimal parse with the type's exclusive bound: optional
leading plus sign, at least one digit, no overflow; errors give none. -/
def parseDec (bound : Nat) (s : List Nat) : Option Nat :=
  let digits := if s.headD 0 = 43 then s.tail else s
  if digits ≠ [] ∧ digits.all (fun b => 48 ≤ b ∧ b ≤ 57) then
    let v := digits.foldl (fun acc b => acc * 10 + (b - 48)) 0
    if v < bound then some v else none
  else none

/-- UTF-8 decoding of an exact byte run (the validity rules of
std::str::from_utf8): continuations in range, no overlongs, no surrogates,
at most U+10FFFF. -/
def utf8Decode (bytes : List Nat) : Option Nat :=
  let cont := fun b => 0x80 ≤ b ∧ b ≤ 0xBF
  match bytes with
  | [b0] => if b0 < 0x80 then some b0 else none
  | [b0, b1] =>
    if 0xC2 ≤ b0 ∧ b0 ≤ 0xDF ∧ cont b1 then some ((b0 - 0xC0) * 64 + (b1 - 0x80)) else none
  | [b0, b1, b2] =>
    let okB1 :=
      (b0 = 0xE0 ∧ 0xA0 ≤ b1 ∧ b1 ≤ 0xBF) ∨
      (0xE1 ≤ b0 ∧ b0 ≤ 0xEC ∧ cont b1) ∨
      (b0 = 0xED ∧ 0x80 ≤ b1 ∧ b1 ≤ 0x9F) ∨
      (0xEE ≤ b0 ∧ b0 ≤ 0xEF ∧ cont b1)
    if okB1 ∧ cont b2 then some ((b0 - 0xE0) * 4096 + (b1 - 0x80) * 64 + (b2 - 0x80)) else none
  | [b0, b1, b2, b3] =>
    let okB1 :=
      (b0 = 0xF0 ∧ 0x90 ≤ b1 ∧ b1 ≤ 0xBF) ∨
      (0xF1 ≤ b0 ∧ b0 ≤ 0xF3 ∧ cont b1) ∨
      (b0 = 0xF4 ∧ 0x80 ≤ b1 ∧ b1 ≤ 0x8F)
    if okB1 ∧ cont b2 ∧ cont b3 then
      some ((b0 - 0xF0) * 262144 + (b1 - 0x80) * 4096 + (b2 - 0x80) * 64 + (b3 - 0x80))
    else none
  | _ => none

/-- InputParser::decode_utf8 — codepoint and consumed length from the front
of the buffer; None both for invalid bytes and for a missing tail. -/
def decodeUtf8 (buf : List Nat) : Option (Nat × Nat) :=
  match buf with
  | [] => none
  | first :: _ =>
    if first < 128 then some (first, 1)
    else
      let len :=
        if first &&& 0xE0 = 0xC0 then some 2
        else if first &&& 0xF0 = 0xE0 then some 3
        else if first &&& 0xF8 = 0xF0 then some 4
        else none
      match len with
      | none => none
      | some len =>
        if buf.length < len then none
        else (utf8Decode (buf.take len)).map fun cp => (cp, len)

/-- Outcome of InputParser::try_parse_one, with the post-call buffer made
explicit (the source drains the buffer in place). -/
inductive TPOut where
  | ev (e : InputEvent) (rest : List Nat)
  | inc
  | inv (skip : Nat) (rest : List Nat)
  deriving DecidableEq, Repr

/-- Final-byte test of parse_csi: ASCII alphabetic or the tilde. -/
def isCsiFinal (b : Nat) : Bool :=
  (65 ≤ b ∧ b ≤ 90) ∨ (97 ≤ b ∧ b ≤ 122) ∨ b = 126

/-- Decode of CSI params and final byte (InputParser::decode_csi); the
tilde branch folds leading digits with wrapping u8 arithmetic. -/
def decodeCsi (params : List Nat) (fb : Nat) : Option InputEvent :=
  if fb = 65 then some (.key .up)
  else if fb = 66 then some (.key .down)
  else if fb = 67 then some (.key .right)
  else if fb = 68 then some (.key .left)
  else if fb = 72 then some (.key .home)
  else if fb = 70 then some (.key .endKey)
  else if fb = 126 then
    let num := (params.takeWhile fun b => 48 ≤ b ∧ b ≤ 57).foldl
      (fun acc b => (acc * 10 + (b - 48)) % 256) 0
    if num = 1 then some (.key .home)
    else if num = 2 then some (.key .insert)
    else if num = 3 then some (.key .delete)
    else if num = 4 then some (.key .endKey)
    else if num = 5 then some (.key .pageUp)
    else if num = 6 then some (.key .pageDown)
    else if num = 15 then some (.key .f5)
    else if num = 17 then some (.key .f6)
    else if num = 18 then some (.key .f7)
    else if num = 19 then some (.key .f8)
    else if num = 20 then some (.key .f9)
    else if num = 21 then some (.key .f10)
    else if num = 23 then some (.key .f11)
    else if num = 24 then some (.key .f12)
    else none
  else none

/-- decode_x10_button. -/
def decodeX10Button (cb : Nat) : MouseButton × MouseEventKind :=
  let b := cb - 32
  let bits := b &&& 3
  let motion := b &&& 0x20 ≠ 0
  let button : MouseButton :=
    if bits = 0 then .left else if bits = 1 then .middle
    else if bits = 2 then .right else .noButton
  let button :=
    if b &&& 0x40 ≠ 0 then
      if bits = 0 then .wheelUp else if bits = 1 then .wheelDown else button
    else button
  let event : MouseEventKind :=
    if bits = 3 then .release else if motion then .drag else .press
  (button, event)

/-- decode_x10_modifiers. -/
def decodeX10Modifiers (cb : Nat) : Modifiers :=
  let b := cb - 32
  { shift := b &&& 4 ≠ 0, alt := b &&& 8 ≠ 0, ctrl := b &&& 16 ≠ 0 }

/-- decode_sgr_button: motion with a real button is Drag, without is Move. -/
def decodeSgrButton (pb : Nat) : MouseButton × MouseEventKind :=
  let bits := pb &&& 3
  let motion := pb &&& 0x20 ≠ 0
  let button : MouseButton :=
    if pb &&& 0x40 ≠ 0 then
      if bits = 0 then .wheelUp else if bits = 1 then .wheelDown else .noButton
    else
      if bits = 0 then .left else if bits = 1 then .middle
      else if bits = 2 then .right else .noButton
  let event : MouseEventKind :=
    if motion ∧ button ≠ .noButton then .drag else if motion then .move else .press
  (button, event)

/-- decode_sgr_modifiers. -/
def decodeSgrModifiers (pb : Nat) : Modifiers :=
  { shift := pb &&& 4 ≠ 0, alt := pb &&& 8 ≠ 0, ctrl := pb &&& 16 ≠ 0 }

/-- Split a byte list at semicolons, keeping empty fields (Rust str::split). -/
def splitSemi : List Nat → List (List Nat)
  | [] => [[]]
  | b :: rest =>
    if b = 59 then [] :: splitSemi rest
    else
      match splitSemi rest with
      | [] => [[b]]
      | h :: t => (b :: h) :: t

/-- InputParser::parse_sgr_mouse on a buffer starting ESC [ <. -/
def parseSgrMouse (buf : List Nat) : TPOut :=
  match (buf.drop 3).findIdx? fun b => b = 77 ∨ b = 109 with
  | none => .inc
  | some pos =>
    let endIdx := 3 + pos
    let isRelease := buf.getD endIdx 0 = 109
    let parts := splitSemi ((buf.drop 3).take pos)
    if parts.length < 3 then .inv 0 (buf.drop (endIdx + 1))
    else
      let pb := (parseDec 256 (parts.getD 0 [])).getD 0
      let x := ((parseDec 65536 (parts.getD 1 [])).getD 1) - 1
      let y := ((parseDec 65536 (parts.getD 2 [])).getD 1) - 1
      let be := decodeSgrButton pb
      let event := if isRelease ∧ be.1 ≠ .noButton then .release else be.2
      .ev (.mouse x y be.1 event (decodeSgrModifiers pb)) (buf.drop (endIdx + 1))

/-- InputParser::parse_x10_mouse on a buffer starting ESC [ M. -/
def parseX10Mouse (buf : List Nat) : TPOut :=
  if buf.length < 6 then .inc
  else
    let cb := buf.getD 3 0
    let cx := buf.getD 4 0
    let cy := buf.getD 5 0
    let be := decodeX10Button cb
    .ev (.mouse (cx - 32) (cy - 32) be.1 be.2 (decodeX10Modifiers cb)) (buf.drop 6)

/-- InputParser::parse_csi on a buffer starting ESC [. -/
def parseCsi (buf : List Nat) : TPOut :=
  if buf.length < 3 then .inc
  else if buf.getD 2 0 = 60 then parseSgrMouse buf
  else if buf.getD 2 0 = 77 then parseX10Mouse buf
  else
    match (buf.drop 2).findIdx? isCsiFinal with
    | none => .inc
    | some pos =>
      let endIdx := 2 + pos
      let finalByte := buf.getD endIdx 0
      let params := (buf.drop 2).take pos
      match decodeCsi params finalByte with
      | some e => .ev e (buf.drop (endIdx + 1))
      | none => .inv 0 (buf.drop (endIdx + 1))

/-- InputParser::parse_ss3 on a buffer starting ESC O. -/
def parseSs3 (buf : List Nat) : TPOut :=
  if buf.length < 3 then .inc
  else
    let b := buf.getD 2 0
    let ev : Option InputEvent :=
      if b = 80 then some (.key .f1) else if b = 81 then some (.key .f2)
      else if b = 82 then some (.key .f3) else if b = 83 then some (.key .f4)
      else if b = 65 then some (.key .up) else if b = 66 then some (.key .down)
      else if b = 67 then some (.key .right) else if b = 68 then some (.key .left)
      else if b = 72 then some (.key .home) else if b = 70 then some (.key .endKey)
      else none
    match ev with
    | some e => .ev e (buf.drop 3)
    | none => .inv 0 (buf.drop 3)

/-- InputParser::parse_escape on a buffer starting ESC. -/
def parseEscape (buf : List Nat) : TPOut :=
  if buf.length < 2 then .inc
  else
    let b1 := buf.getD 1 0
    if b1 = 91 then parseCsi buf
    else if b1 = 79 then parseSs3 buf
    else if b1 ≥ 32 then .ev (.char b1) (buf.drop 2)
    else .inv 1 buf

/-- InputParser::try_parse_one. -/
def tryParseOne (buf : List Nat) : TPOut :=
  match buf with
  | [] => .inc
  | first :: rest =>
    if first = 0x1b then parseEscape buf
    else if first < 32 ∨ first = 0x7f then
      let e : InputEvent :=
        if first = 0x0d ∨ first = 0x0a then .key .enter
        else if first = 9 then .key .tab
        else if first = 0x7f ∨ first = 8 then .key .backspace
        else .char first
      .ev e rest
    else
      match decodeUtf8 buf with
      | some cl => .ev (.char cl.1) (buf.drop cl.2)
      | none => .inv 1 buf

/-- Parse loop of InputParser::parse: repeatedly try one event until the
buffer is empty or incomplete. Fuel bounds the iteration count; every
non-stopping step drops at least one byte, so buffer length plus one is
always enough. -/
def parseLoop : Nat → List Nat → List InputEvent × List Nat
  | 0, buf => ([], buf)
  | fuel + 1, buf =>
    if buf.isEmpty then ([], buf)
    else
      match tryParseOne buf with
      | .ev e rest =>
        let r := parseLoop fuel rest
        (e :: r.1, r.2)
      | .inc => ([], buf)
      | .inv k rest => parseLoop fuel (rest.drop k)

/-- InputParser::parse — append data to the carried buffer and run the
loop; returns the events and the residual buffer (the parser state). -/
def parseBytes (st : List Nat) (data : List Nat) : List InputEvent × List Nat :=
  let buf := st ++ data
  parseLoop (buf.length + 1) buf

/-! ## ANSI renderer SGR state (src/renderer/ansi_ibm.rs) -/

/-- Remembered SGR state of AnsiIbmRenderer (color and attribute part). -/
structure RState where
  fg : Color
  bg : Color
  attrs : Attrs
  deriving DecidableEq, Repr

/-- Reset condition of AnsiIbmRenderer::sgr: some attribute was set before
and is no longer set. -/
def needsReset (cur next : Attrs) : Bool :=
  (cur.bold && !next.bold) || (cur.dim && !next.dim) || (cur.italic && !next.italic)
  || (cur.underline && !next.underline) || (cur.blink && !next.blink)
  || (cur.reverse && !next.reverse)

/-- AnsiIbmRenderer::sgr — the emitted code list and the updated remembered
state. On reset the remembered colors become the BrightMagenta sentinel
before the color comparison. -/
def sgrEmit (st : RState) (fg bg : Color) (attrs : Attrs) : List Nat × RState :=
  let r := needsReset st.attrs attrs
  let st1 : RState :=
    if r then { fg := .brightMagenta, bg := .brightMagenta, attrs := {} } else st
  let codes :=
    (if r then [0] else [])
    ++ (if attrs.bold && !st1.attrs.bold then [1] else [])
    ++ (if attrs.dim && !st1.attrs.dim then [2] else [])
    ++ (if attrs.italic && !st1.attrs.italic then [3] else [])
    ++ (if attrs.underline && !st1.attrs.underline then [4] else [])
    ++ (if attrs.blink && !st1.attrs.blink then [5] else [])
    ++ (if attrs.reverse && !st1.attrs.reverse then [7] else [])
    ++ (if fg ≠ st1.fg then [fg.fgCode] else [])
    ++ (if bg ≠ st1.bg then [bg.bgCode] else [])
  (codes, { fg := fg, bg := bg, attrs := attrs })

/-- Digit-emission loop for decimal rendering; the fuel bounds the digit
count and n + 1 units always suffice. -/
def decBytesGo (fuel n : Nat) : List Nat :=
  match fuel with
  | 0 => []
  | fuel + 1 => if n < 10 then [48 + n] else decBytesGo fuel (n / 10) ++ [48 + n % 10]

/-- Decimal digit bytes of a number (Rust Display for unsigned integers). -/
def decBytes (n : Nat) : List Nat := decBytesGo (n + 1) n

/-- Join code byte lists with semicolons (the join used by sgr emission). -/
def joinSemi : List (List Nat) → List Nat
  | [] => []
  | [l] => l
  | l :: rest => l ++ 59 :: joinSemi rest

/-- Byte form of the emitted SGR sequence: empty when no codes, otherwise
CSI, the decimal codes joined by semicolons, and the final m. -/
def sgrBytesOf (codes : List Nat) : List Nat :=
  if codes.isEmpty then [] else [27, 91] ++ joinSemi (codes.map decBytes) ++ [109]

/-! ## Terminal emulator (src/terminal.rs) -/

/-- ParserState enum of terminal.rs. -/
inductive TermPState where
  | normal | escape | csi | osc
  deriving DecidableEq, Repr

/-- TerminalType enum. -/
inductive TerminalType where
  | ansi | vt100 | xterm | raw
  deriving DecidableEq, Repr

/-- Terminal struct; the screen is a list of rows of cells, the escape
buffer a byte list, and the response queue a list of byte lists. -/
structure Terminal where
  id : String
  screen : List (List Cell)
  width : Nat
  height : Nat
  cursorX : Nat
  cursorY : Nat
  fg : Color
  bg : Color
  attrs : Attrs
  savedCursor : Option (Nat × Nat)
  scrollback : List (List Cell)
  maxScrollback : Nat
  dirty : Bool
  parserState : TermPState
  escBuffer : List Nat
  termType : TerminalType
  responseQueue : List (List Nat)

/-- Space cell carrying the terminal's current colors (Cell::full). -/
def Terminal.blankCell (t : Terminal) : Cell :=
  { char := 32, fg := t.fg, bg := t.bg, attrs := {}, dirty := true }

/-- Terminal::new. -/
def Terminal.new (id : String) (width height : Nat) (tt : TerminalType) : Terminal :=
  { id := id
    screen := List.replicate height (List.replicate width
      { char := 32, fg := .white, bg := .black, attrs := {}, dirty := true })
    width := width, height := height, cursorX := 0, cursorY := 0
    fg := .white, bg := .black, attrs := {}
    savedCursor := none, scrollback := [], maxScrollback := 1000
    dirty := true, parserState := .normal, escBuffer := []
    termType := tt, responseQueue := [] }

/-- In-bounds screen write screen[y][x] = cell (a no-op out of bounds; the
emulator only performs it with the cursor inside the screen). -/
def Terminal.setScreenCell (t : Terminal) (y x : Nat) (cell : Cell) : Terminal :=
  { t with screen := t.screen.set y ((t.screen.getD y []).set x cell) }

/-- Terminal::scroll_up — top row to scrollback (bounded), blank row at the
bottom. -/
def Terminal.scrollUp (t : Terminal) : Terminal :=
  match t.screen with
  | [] => t
  | top :: rest =>
    let sb := t.scrollback ++ [top]
    -- the while loop pops from the front until the bound holds
    let sb := sb.drop (sb.length - t.maxScrollback)
    { t with screen := rest ++ [List.replicate t.width t.blankCell], scrollback := sb }

/-- Terminal::scroll_down — drop the bottom row, blank row on top. -/
def Terminal.scrollDown (t : Terminal) : Terminal :=
  match t.screen with
  | [] => t
  | _ :: _ =>
    { t with screen := List.replicate t.width t.blankCell :: t.screen.dropLast }

/-- Terminal::newline — cursor down or scroll at the bottom. -/
def Terminal.newline (t : Terminal) : Terminal :=
  if t.cursorY < t.height - 1 then { t with cursorY := t.cursorY + 1 } else t.scrollUp

/-- Terminal::put_char — wrap at the right edge, write, advance. -/
def Terminal.putChar (t : Terminal) (ch : Nat) : Terminal :=
  let t := if t.cursorX ≥ t.width then Terminal.newline { t with cursorX := 0 } else t
  if t.cursorY < t.height ∧ t.cursorX < t.width then
    let t := t.setScreenCell t.cursorY t.cursorX
      { char := ch, fg := t.fg, bg := t.bg, attrs := t.attrs, dirty := true }
    { t with cursorX := t.cursorX + 1 }
  else t

/-- Terminal::erase_line_right. -/
def Terminal.eraseLineRight (t : Terminal) : Terminal :=
  (List.range (t.width - t.cursorX)).foldl
    (fun t i => t.setScreenCell t.cursorY (t.cursorX + i) t.blankCell) t

/-- Terminal::erase_line_left (inclusive up to min(cursor, width-1)). -/
def Terminal.eraseLineLeft (t : Terminal) : Terminal :=
  (List.range (Nat.min t.cursorX (t.width - 1) + 1)).foldl
    (fun t x => t.setScreenCell t.cursorY x t.blankCell) t

/-- Terminal::erase_line. -/
def Terminal.eraseLine (t : Terminal) : Terminal :=
  (List.range t.width).foldl (fun t x => t.setScreenCell t.cursorY x t.blankCell) t

/-- Terminal::erase_below. -/
def Terminal.eraseBelow (t : Terminal) : Terminal :=
  let t := t.eraseLineRight
  (List.range (t.height - (t.cursorY + 1))).foldl
    (fun t dy =>
      (List.range t.width).foldl
        (fun t x => t.setScreenCell (t.cursorY + 1 + dy) x t.blankCell) t) t

/-- Terminal::erase_above. -/
def Terminal.eraseAbove (t : Terminal) : Terminal :=
  let t := (List.range t.cursorY).foldl
    (fun t y => (List.range t.width).foldl (fun t x => t.setScreenCell y x t.blankCell) t) t
  t.eraseLineLeft

/-- Terminal::erase_all. -/
def Terminal.eraseAll (t : Terminal) : Terminal :=
  (List.range t.height).foldl
    (fun t y => (List.range t.width).foldl (fun t x => t.setScreenCell y x t.blankCell) t) t

/-- Terminal::reset. -/
def Terminal.resetTerm (t : Terminal) : Terminal :=
  Terminal.eraseAll
    { t with cursorX := 0, cursorY := 0, fg := .white, bg := .black
             attrs := {}, savedCursor := none }

/-- The simple (single-parameter) SGR codes of Terminal::process_sgr; each
arm only assigns the colors and attributes. -/
def sgrSimple (fg bg : Color) (attrs : Attrs) (p : Nat) : Color × Color × Attrs :=
  if p = 0 then (.white, .black, {})
  else if p = 1 then (fg, bg, { attrs with bold := true })
  else if p = 2 then (fg, bg, { attrs with dim := true })
  else if p = 3 then (fg, bg, { attrs with italic := true })
  else if p = 4 then (fg, bg, { attrs with underline := true })
  else if p = 5 ∨ p = 6 then (fg, bg, { attrs with blink := true })
  else if p = 7 then (fg, bg, { attrs with reverse := true })
  else if p = 21 then (fg, bg, { attrs with bold := false })
  else if p = 22 then (fg, bg, { attrs with bold := false, dim := false })
  else if p = 23 then (fg, bg, { attrs with italic := false })
  else if p = 24 then (fg, bg, { attrs with underline := false })
  else if p = 25 then (fg, bg, { attrs with blink := false })
  else if p = 27 then (fg, bg, { attrs with reverse := false })
  else if 30 ≤ p ∧ p ≤ 37 then (Color.fromNat (p - 30), bg, attrs)
  else if p = 39 then (.white, bg, attrs)
  else if 40 ≤ p ∧ p ≤ 47 then (fg, Color.fromNat (p - 40), attrs)
  else if p = 49 then (fg, .black, attrs)
  else if 90 ≤ p ∧ p ≤ 97 then (Color.fromNat (p - 90 + 8), bg, attrs)
  else if 100 ≤ p ∧ p ≤ 107 then (fg, Color.fromNat (p - 100 + 8), attrs)
  else (fg, bg, attrs)

/-- Apply one simple SGR code to the terminal's colors and attributes. -/
def sgrApply (t : Terminal) (p : Nat) : Terminal :=
  let s := sgrSimple t.fg t.bg t.attrs p
  { t with fg := s.1, bg := s.2.1, attrs := s.2.2 }

/-- SGR parameter loop of Terminal::process_sgr; 38 and 48 in 256-color
form (following 5 with a color, with both lookahead parameters present)
consume two extra parameters, otherwise the loop moves one parameter on. -/
def sgrLoop (t : Terminal) : List Nat → Terminal
  | [] => t
  | p :: rest =>
    if p = 38 ∨ p = 48 then
      match rest with
      | [] => t
      | [p1] => sgrLoop t [p1]
      | p1 :: p2 :: rest2 =>
        if p1 = 5 then
          if p = 38 then sgrLoop { t with fg := Color.fromNat (p2 % 256) } rest2
          else sgrLoop { t with bg := Color.fromNat (p2 % 256) } rest2
        else sgrLoop t (p1 :: p2 :: rest2)
    else sgrLoop (sgrApply t p) rest

/-- Terminal::process_sgr — empty parameter list resets. -/
def Terminal.processSgr (t : Terminal) (params : List Nat) : Terminal :=
  if params.isEmpty then { t with fg := .white, bg := .black, attrs := {} }
  else sgrLoop t params

/-- CSI parameter of execute_csi: usize parse with errors as 0. -/
def csiParam (s : List Nat) : Nat :=
  (parseDec (2 ^ 64) s).getD 0

/-- Terminal::execute_csi on a final byte, reading parameters from the
escape buffer. -/
def Terminal.executeCsi (t : Terminal) (fb : Nat) : Terminal :=
  let params := (splitSemi t.escBuffer).map csiParam
  let first1 := Nat.max (params.getD 0 1) 1
  if fb = 65 then { t with cursorY := t.cursorY - first1 }
  else if fb = 66 then { t with cursorY := Nat.min (t.cursorY + first1) (t.height - 1) }
  else if fb = 67 then { t with cursorX := Nat.min (t.cursorX + first1) (t.width - 1) }
  else if fb = 68 then { t with cursorX := t.cursorX - first1 }
  else if fb = 69 then
    { t with cursorY := Nat.min (t.cursorY + first1) (t.height - 1), cursorX := 0 }
  else if fb = 70 then { t with cursorY := t.cursorY - first1, cursorX := 0 }
  else if fb = 71 then { t with cursorX := Nat.min (first1 - 1) (t.width - 1) }
  else if fb = 72 ∨ fb = 102 then
    let row := Nat.max (params.getD 0 1) 1
    let col := Nat.max (params.getD 1 1) 1
    { t with cursorY := Nat.min (row - 1) (t.height - 1)
             cursorX := Nat.min (col - 1) (t.width - 1) }
  else if fb = 74 then
    let n := params.getD 0 0
    if n = 0 then t.eraseBelow else if n = 1 then t.eraseAbove
    else if n = 2 ∨ n = 3 then t.eraseAll else t
  else if fb = 75 then
    let n := params.getD 0 0
    if n = 0 then t.eraseLineRight else if n = 1 then t.eraseLineLeft
    else if n = 2 then t.eraseLine else t
  else if fb = 83 then (List.range first1).foldl (fun t _ => t.scrollUp) t
  else if fb = 84 then (List.range first1).foldl (fun t _ => t.scrollDown) t
  else if fb = 109 then t.processSgr params
  else if fb = 115 then { t with savedCursor := some (t.cursorX, t.cursorY) }
  else if fb = 117 then
    match t.savedCursor with
    | some c => { t with cursorX := c.1, cursorY := c.2 }
    | none => t
  else if fb = 110 then
    if params.getD 0 0 = 6 then
      { t with responseQueue := t.responseQueue
          ++ [[27, 91] ++ decBytes (t.cursorY + 1) ++ [59] ++ decBytes (t.cursorX + 1) ++ [82]] }
    else t
  else t

/-- Terminal::process_byte — the four-state parser. -/
def Terminal.processByte (t : Terminal) (b : Nat) : Terminal :=
  match t.parserState with
  | .normal =>
    if b = 0x1b then { t with parserState := .escape, escBuffer := [] }
    else if b = 0x07 then t
    else if b = 0x08 then if t.cursorX > 0 then { t with cursorX := t.cursorX - 1 } else t
    else if b = 0x09 then
      let nx := (t.cursorX + 8) &&& (2 ^ 64 - 8)
      { t with cursorX := if nx ≥ t.width then t.width - 1 else nx }
    else if b = 0x0a then t.newline
    else if b = 0x0d then { t with cursorX := 0 }
    else if (0x20 ≤ b ∧ b ≤ 0x7e) ∨ (0x80 ≤ b ∧ b ≤ 0xff) then t.putChar b
    else t
  | .escape =>
    if b = 91 then { t with parserState := .csi, escBuffer := [] }
    else if b = 93 then { t with parserState := .osc, escBuffer := [] }
    else if b = 55 then
      { t with savedCursor := some (t.cursorX, t.cursorY), parserState := .normal }
    else if b = 56 then
      match t.savedCursor with
      | some c => { t with cursorX := c.1, cursorY := c.2, parserState := .normal }
      | none => { t with parserState := .normal }
    else if b = 68 then { t.newline with parserState := .normal }
    else if b = 69 then { Terminal.newline { t with cursorX := 0 } with parserState := .normal }
    else if b = 77 then
      if t.cursorY > 0 then { t with cursorY := t.cursorY - 1, parserState := .normal }
      else { t with parserState := .normal }
    else if b = 99 then { t.resetTerm with parserState := .normal }
    else { t with parserState := .normal }
  | .csi =>
    if 0x40 ≤ b ∧ b ≤ 0x7e then { t.executeCsi b with parserState := .normal }
    else { t with escBuffer := t.escBuffer ++ [b] }
  | .osc =>
    if b = 0x07 ∨ b = 0x1b then { t with parserState := .normal }
    else { t with escBuffer := t.escBuffer ++ [b] }

/-- Terminal::process_data — raw terminals display printables only, the
rest run the ANSI state machine; the dirty flag is raised afterwards. -/
def Terminal.processData (t : Terminal) (data : List Nat) : Terminal :=
  if t.termType = .raw then
    let t := data.foldl
      (fun t b =>
        if 32 ≤ b ∧ b < 127 then t.putChar b
        else if b = 10 then t.newline
        else if b = 13 then { t with cursorX := 0 }
        else t) t
    { t with dirty := true }
  else
    { data.foldl Terminal.processByte t with dirty := true }

/-- Terminal::resize — default-filled buffer with the overlapping rectangle
copied, cursor clamped. -/
def Terminal.resizeTerm (t : Terminal) (newWidth newHeight : Nat) : Terminal :=
  let defaultCell : Cell := { char := 32, fg := .white, bg := .black, attrs := {}, dirty := true }
  let newScreen := (List.range newHeight).map fun y =>
    (List.range newWidth).map fun x =>
      if y < t.height ∧ x < t.width then (t.screen.getD y []).getD x defaultCell
      else defaultCell
  { t with screen := newScreen, width := newWidth, height := newHeight
           cursorX := Nat.min t.cursorX (newWidth - 1)
           cursorY := Nat.min t.cursorY (newHeight - 1), dirty := true }

/-- One external operation on a terminal: a process_data call or a resize. -/
inductive TermOp where
  | data (bytes : List Nat)
  | resize (w h : Nat)

/-- Apply a sequence of terminal operations. -/
def applyTermOps (t : Terminal) : List TermOp → Terminal
  | [] => t
  | .data bs :: rest => applyTermOps (t.processData bs) rest
  | .resize w h :: rest => applyTermOps (t.resizeTerm w h) rest

/-- Validity of an operation: resizes keep both dimensions positive. -/
def TermOp.ok : TermOp → Prop
  | .data _ => True
  | .resize w h => 1 ≤ w ∧ 1 ≤ h

/-- Cursor and screen-shape invariant of the terminal emulator. -/
def TermInv (t : Terminal) : Prop :=
  0 < t.width ∧ 0 < t.height ∧ t.cursorX ≤ t.width ∧ t.cursorY < t.height ∧
  t.screen.length = t.height ∧ ∀ r ∈ t.screen, r.length = t.width

/-- Content-grid dimensions agree with the window's size and border. -/
def borderedContentInv (w : Window) : Prop :=
  w.content.cols = (Window.contentSize w.width w.height w.border).1 ∧
  w.content.rows = (Window.contentSize w.width w.height w.border).2

/-- Concrete manager used to examine create_window on an existing id. -/
def wmStep0 : WindowManager := (WindowManager.new 20 20).createWindow "w" 0 0 4 4

/-- The same manager after writing an X into the window content. -/
def wmStep1 : WindowManager :=
  wmStep0.updateWindow "w" fun w => w.setCont 0 0 88 .white none

/-- The same manager after re-running create_window with a larger size. -/
def wmStep2 : WindowManager := wmStep1.createWindow "w" 1 1 5 5

/-- Window whose title holds five two-byte characters, small enough to need
truncation. -/
def multibyteTitleWindow : Window :=
  { Window.new "w" 0 0 10 5 with title := some [233, 233, 233, 233, 233] }

/-- Numeric value of a decimal digit-byte list (most significant first). -/
def decVal (l : List Nat) : Nat := l.foldl (fun acc b => acc * 10 + (b - 48)) 0

/-- Terminal invariant strengthened with bounds on the saved cursor. -/
def TermInvS (t : Terminal) : Prop :=
  TermInv t ∧ ∀ p, t.savedCursor = some p → p.1 ≤ t.width ∧ p.2 < t.height

/-- Control-field equality: same dimensions, cursor and saved cursor. -/
def CtlEq (t t' : Terminal) : Prop :=
  t'.width = t.width ∧ t'.height = t.height ∧ t'.cursorX = t.cursorX ∧
  t'.cursorY = t.cursorY ∧ t'.savedCursor = t.savedCursor

/-- Terminal that moves the cursor to row 3, saves it, shrinks to one row
and restores: the restored cursor lies below the screen. -/
def staleRestoreTerminal : Terminal :=
  (((Terminal.new "t" 3 3 .ansi).processData
      [27, 91, 51, 59, 49, 72, 27, 55]).resizeTerm 3 1).processData [27, 56]

/-! ## Theorems -/

set_option maxRecDepth 8000

theorem applyMut_dirty (c : Cell) (m : CellMut) :
    (applyMut c m).dirty = (c.dirty || mutChanges c m) := by
  cases m <;>
    simp only [applyMut, Cell.setChar, Cell.setFg, Cell.setBg, Cell.setAll, mutChanges] <;>
    split <;> simp_all

/-- C6: a cell's dirty flag after any sequence of mutator calls is its
prior dirty flag or-ed with whether some call observed a value change;
equality-preserving writes leave it unchanged and any change sets it. -/
theorem cell_dirty_iff_observed_change (c : Cell) (ms : List CellMut) :
    (applyMuts c ms).dirty = (c.dirty || observedChange c ms) := by
  induction ms generalizing c with
  | nil => simp [applyMuts, observedChange]
  | cons m ms ih => simp [applyMuts, observedChange, ih, applyMut_dirty, Bool.or_assoc]

theorem filterTelnet_no_iac (l : List Nat) (h : 255 ∉ l) : filterTelnet l = l := by
  induction l with
  | nil => rw [filterTelnet.eq_def]
  | cons b rest ih =>
    have hb : ¬b = 255 := fun he => h (he ▸ List.mem_cons_self b rest)
    have hr : 255 ∉ rest := fun hm => h (List.mem_cons_of_mem b hm)
    rw [filterTelnet.eq_def]
    simp [hb, ih hr]

/-- C2 counterexample: the filter is not idempotent — four IAC bytes
filter to two, which refilter to one. -/
theorem filterTelnet_not_idempotent :
    filterTelnet (filterTelnet [255, 255, 255, 255]) ≠ filterTelnet [255, 255, 255, 255] := by
  simp [filterTelnet]

/-- C2 (amended): refiltering is the identity on any filter output that
contains no 0xff byte, and an IAC IAC pair produces exactly one literal
0xff followed by the filtered remainder. -/
theorem filterTelnet_amended :
    (∀ s : List Nat, 255 ∉ filterTelnet s → filterTelnet (filterTelnet s) = filterTelnet s) ∧
    (∀ rest : List Nat, filterTelnet (255 :: 255 :: rest) = 255 :: filterTelnet rest) := by
  refine ⟨fun s h => filterTelnet_no_iac _ h, fun rest => ?_⟩
  rw [filterTelnet.eq_def]
  simp

/-- C2 witness at a concrete IAC-free stream. -/
theorem filterTelnet_amended_witness :
    filterTelnet (filterTelnet [104, 105]) = filterTelnet [104, 105] :=
  filterTelnet_amended.1 [104, 105] (by simp [filterTelnet])

/-- C1 (code bug): splitting the UTF-8 bytes of one character across two
parse calls loses the character — both chunked calls return no events
while the single call on the concatenation returns the character. The
first chunk's lead byte is dropped as Invalid rather than kept Incomplete. -/
theorem parse_utf8_chunk_divergence :
    (parseBytes [] [195]).1 ++ (parseBytes (parseBytes [] [195]).2 [169]).1 = [] ∧
    (parseBytes [] [195, 169]).1 = [InputEvent.char 233] := by decide

/-- C4 counterexample: a freshly created 1 by 1 window has the default
Single border, yet content.cols + 2 is 2, not the width 1 (content size
uses saturating subtraction). -/
theorem window_content_size_counterexample :
    (Window.new "w" 0 0 1 1).border.hasBorder = true ∧
    ¬((Window.new "w" 0 0 1 1).content.cols + 2 = (Window.new "w" 0 0 1 1).width) := by
  decide

/-- C4 (amended): the content grid always measures the saturating
difference (width - 2, height - 2) under a border — so content.cols + 2 =
width and content.rows + 2 = height hold whenever the dimension is at
least 2 — and the invariant is established by new and re-established by
set_border and resize. -/
theorem window_content_size_amended :
    (∀ (id : String) (x y W H : Nat), borderedContentInv (Window.new id x y W H)) ∧
    (∀ (w : Window) (b : BorderStyle), borderedContentInv w → borderedContentInv (w.setBorder b)) ∧
    (∀ (w : Window) (W H : Nat), borderedContentInv (w.resize W H)) ∧
    (∀ w : Window, borderedContentInv w → w.border.hasBorder = true → 2 ≤ w.width →
      w.content.cols + 2 = w.width) ∧
    (∀ w : Window, borderedContentInv w → w.border.hasBorder = true → 2 ≤ w.height →
      w.content.rows + 2 = w.height) := by
  refine ⟨?_, ?_, ?_, ?_, ?_⟩
  · intro id x y W H
    simp [borderedContentInv, Window.new, Grid.new]
  · intro w b hw
    by_cases hb : w.border = b
    · simpa [Window.setBorder, hb] using hw
    · simp [borderedContentInv, Window.setBorder, hb, Grid.resize]
  · intro w W H
    simp [borderedContentInv, Window.resize, Grid.resize]
  · intro w hw hb h2
    rcases hw with ⟨h1, _⟩
    rw [h1]
    simp [Window.contentSize, hb]
    omega
  · intro w hw hb h2
    rcases hw with ⟨_, h1⟩
    rw [h1]
    simp [Window.contentSize, hb]
    omega

/-- C4 witness: a concrete bordered 7 by 6 window after set_border. -/
theorem window_content_size_amended_witness :
    ((Window.new "a" 0 0 7 6).setBorder .double).content.cols + 2 =
      ((Window.new "a" 0 0 7 6).setBorder .double).width :=
  window_content_size_amended.2.2.2.1 ((Window.new "a" 0 0 7 6).setBorder .double)
    (window_content_size_amended.2.1 (Window.new "a" 0 0 7 6) .double
      (window_content_size_amended.1 "a" 0 0 7 6))
    (by decide) (by decide)

/-- C8 (code bug): render_to is not total — a window whose title holds
multibyte characters and needs truncation byte-slices off a character
boundary, a Rust panic (modelled as none); the same window with an ASCII
title renders fine. -/
theorem render_to_title_panic :
    multibyteTitleWindow.renderTo (Grid.new 20 20) = none ∧
    ({ multibyteTitleWindow with title := some [104, 105] } : Window).renderTo
      (Grid.new 20 20) ≠ none := by
  decide

theorem lookup_map_update (l : List (String × Window)) (id : String) (f : Window → Window) :
    (l.map fun p => if p.1 = id then (p.1, f p.2) else p).lookup id = (l.lookup id).map f := by
  induction l with
  | nil => simp
  | cons p t ih =>
    obtain ⟨k, v⟩ := p
    by_cases hp : k = id
    · subst hp
      have hif : (if (k, v).1 = k then ((k, v).1, f (k, v).2) else (k, v)) = (k, f v) := by simp
      rw [List.map_cons, hif]
      simp [List.lookup]
    · have hif : (if (k, v).1 = id then ((k, v).1, f (k, v).2) else (k, v)) = (k, v) := by
        simp [hp]
      have hne : (id == k) = false := by simp [Ne.symm hp]
      rw [List.map_cons, hif]
      simp [List.lookup, hne, ih]

/-- C7 counterexample: re-running create_window on an existing id with a
different size does touch the content — the X written at (0,0) is replaced
by a default blank cell after the implicit resize. -/
theorem create_window_resets_content :
    ((wmStep1.windows.lookup "w").map fun w => (w.content.get 0 0).map Cell.char)
      = some (some 88) ∧
    ((wmStep2.windows.lookup "w").map fun w => (w.content.get 0 0).map Cell.char)
      = some (some 32) := by decide

/-- C7 (amended): create_window on an existing id updates position and
size and marks the window dirty; the content grid is preserved exactly
when the requested size equals the current size, and is reallocated to
default cells (through Window::resize) when the size differs. -/
theorem create_window_existing_amended :
    (∀ (wm : WindowManager) (id : String) (x y : Nat) (win : Window),
      wm.windows.lookup id = some win →
      (wm.createWindow id x y win.width win.height).windows.lookup id =
        some { win with x := x, y := y, dirty := true }) ∧
    (∀ (wm : WindowManager) (id : String) (x y W H : Nat) (win : Window),
      wm.windows.lookup id = some win → ¬(win.width = W ∧ win.height = H) →
      (wm.createWindow id x y W H).windows.lookup id =
        some { Window.resize { win with x := x, y := y } W H with dirty := true }) := by
  constructor
  · intro wm id x y win h
    simp only [WindowManager.createWindow, h, WindowManager.updateWindow,
      lookup_map_update, Option.map]
    simp [createWindowUpd]
  · intro wm id x y W H win h hne
    simp only [WindowManager.createWindow, h, WindowManager.updateWindow,
      lookup_map_update, Option.map]
    simp only [createWindowUpd]
    congr 1
    split
    · rfl
    · rename_i hcon
      simp only [ne_eq, not_or, Decidable.not_not] at hcon
      exact absurd ⟨hcon.1, hcon.2⟩ hne

/-- C7 witness: updating position with the same size preserves content. -/
theorem create_window_existing_amended_witness :
    (wmStep1.createWindow "w" 3 3
        ((Window.new "w" 0 0 4 4).setCont 0 0 88 .white none).width
        ((Window.new "w" 0 0 4 4).setCont 0 0 88 .white none).height).windows.lookup "w" =
      some { (Window.new "w" 0 0 4 4).setCont 0 0 88 .white none with
             x := 3, y := 3, dirty := true } :=
  create_window_existing_amended.1 wmStep1 "w" 3 3
    ((Window.new "w" 0 0 4 4).setCont 0 0 88 .white none) (by decide)

theorem fgCode_notSmall (c : Color) :
    c.fgCode ≠ 0 ∧ c.fgCode ≠ 1 ∧ c.fgCode ≠ 2 ∧ c.fgCode ≠ 3 ∧ c.fgCode ≠ 4 ∧
    c.fgCode ≠ 5 ∧ c.fgCode ≠ 7 := by
  cases c <;> decide

theorem bgCode_notSmall (c : Color) :
    c.bgCode ≠ 0 ∧ c.bgCode ≠ 1 ∧ c.bgCode ≠ 2 ∧ c.bgCode ≠ 3 ∧ c.bgCode ≠ 4 ∧
    c.bgCode ≠ 5 ∧ c.bgCode ≠ 7 := by
  cases c <;> decide

theorem fgCode_notSmallRev (c : Color) :
    (0 : Nat) ≠ c.fgCode ∧ (1 : Nat) ≠ c.fgCode ∧ (2 : Nat) ≠ c.fgCode ∧
    (3 : Nat) ≠ c.fgCode ∧ (4 : Nat) ≠ c.fgCode ∧ (5 : Nat) ≠ c.fgCode ∧
    (7 : Nat) ≠ c.fgCode := by
  cases c <;> decide

theorem bgCode_notSmallRev (c : Color) :
    (0 : Nat) ≠ c.bgCode ∧ (1 : Nat) ≠ c.bgCode ∧ (2 : Nat) ≠ c.bgCode ∧
    (3 : Nat) ≠ c.bgCode ∧ (4 : Nat) ≠ c.bgCode ∧ (5 : Nat) ≠ c.bgCode ∧
    (7 : Nat) ≠ c.bgCode := by
  cases c <;> decide

theorem fgCode_ne_bgCode (a b : Color) : a.fgCode ≠ b.bgCode := by
  cases a <;> cases b <;> decide

theorem mem_if_singleton {c : Prop} [Decidable c] {x k : Nat} :
    x ∈ (if c then [k] else ([] : List Nat)) ↔ c ∧ x = k := by
  split <;> simp_all

/-- C3 counterexample: turning bold off with the next cell colored
BrightMagenta forces a reset, but the foreground code 95 is not re-emitted
because the sentinel equals that real color — the codes are just 0;40. -/
theorem sgr_emit_sentinel_counterexample :
    (sgrEmit ⟨.white, .black, { bold := true }⟩ .brightMagenta .black {}).1 = [0, 40] ∧
    Color.fgCode .brightMagenta = 95 ∧ (95 : Nat) ∉ ([0, 40] : List Nat) := by decide

/-- C3 (amended): when a previously set attribute is dropped, the emitted
codes contain the full reset 0 and re-emit the cell's foreground and
background codes unless that color is the BrightMagenta sentinel itself;
otherwise no reset is emitted and an attribute or color code appears
exactly when it newly changed. The remembered state always becomes the
cell's state. -/
theorem sgr_emit_amended : ∀ (st : RState) (fg bg : Color) (attrs : Attrs),
    (needsReset st.attrs attrs = true →
      0 ∈ (sgrEmit st fg bg attrs).1 ∧
      (fg ≠ .brightMagenta → fg.fgCode ∈ (sgrEmit st fg bg attrs).1) ∧
      (bg ≠ .brightMagenta → bg.bgCode ∈ (sgrEmit st fg bg attrs).1)) ∧
    (needsReset st.attrs attrs = false →
      0 ∉ (sgrEmit st fg bg attrs).1 ∧
      (fg.fgCode ∈ (sgrEmit st fg bg attrs).1 ↔ fg ≠ st.fg) ∧
      (bg.bgCode ∈ (sgrEmit st fg bg attrs).1 ↔ bg ≠ st.bg) ∧
      ((1 : Nat) ∈ (sgrEmit st fg bg attrs).1 ↔ (attrs.bold && !st.attrs.bold) = true) ∧
      ((2 : Nat) ∈ (sgrEmit st fg bg attrs).1 ↔ (attrs.dim && !st.attrs.dim) = true) ∧
      ((3 : Nat) ∈ (sgrEmit st fg bg attrs).1 ↔ (attrs.italic && !st.attrs.italic) = true) ∧
      ((4 : Nat) ∈ (sgrEmit st fg bg attrs).1 ↔ (attrs.underline && !st.attrs.underline) = true) ∧
      ((5 : Nat) ∈ (sgrEmit st fg bg attrs).1 ↔ (attrs.blink && !st.attrs.blink) = true) ∧
      ((7 : Nat) ∈ (sgrEmit st fg bg attrs).1 ↔ (attrs.reverse && !st.attrs.reverse) = true)) ∧
    (sgrEmit st fg bg attrs).2 = ⟨fg, bg, attrs⟩ := by
  intro st fg bg attrs
  obtain ⟨f0, f1, f2, f3, f4, f5, f7⟩ := fgCode_notSmall fg
  obtain ⟨g0, g1, g2, g3, g4, g5, g7⟩ := bgCode_notSmall bg
  obtain ⟨r0, r1, r2, r3, r4, r5, r7⟩ := fgCode_notSmallRev fg
  obtain ⟨q0, q1, q2, q3, q4, q5, q7⟩ := bgCode_notSmallRev bg
  have hfb := fgCode_ne_bgCode fg bg
  have hbf := Ne.symm hfb
  refine ⟨fun h => ?_, fun h => ?_, by simp [sgrEmit]⟩
  · refine ⟨?_, fun hne => ?_, fun hne => ?_⟩
    · simp [sgrEmit, h]
    · simp [sgrEmit, h, hne]
    · simp [sgrEmit, h, hne]
  · simp only [sgrEmit, h, Bool.false_eq_true, if_false, List.nil_append, List.mem_append,
      mem_if_singleton]
    refine ⟨?_, ?_, ?_, ?_, ?_, ?_, ?_, ?_, ?_⟩
    · push_neg
      simp_all
    · simp_all
    · simp_all
    · simp_all
    · simp_all
    · simp_all
    · simp_all
    · simp_all
    · simp_all

/-- C3 witness: forced reset at a concrete state and cell. -/
theorem sgr_emit_amended_witness :
    0 ∈ (sgrEmit ⟨.white, .black, { bold := true }⟩ .red .black {}).1 :=
  ((sgr_emit_amended ⟨.white, .black, { bold := true }⟩ .red .black {}).1 (by decide)).1

theorem parseDec_digits (bound : Nat) (l : List Nat) (h0 : l ≠ [])
    (hd : ∀ b ∈ l, 48 ≤ b ∧ b ≤ 57) (hv : decVal l < bound) :
    parseDec bound l = some (decVal l) := by
  obtain ⟨b, rest, rfl⟩ : ∃ b rest, l = b :: rest := by
    cases l with
    | nil => exact absurd rfl h0
    | cons b rest => exact ⟨b, rest, rfl⟩
  have hb := hd b (List.mem_cons_self b rest)
  have hb43 : ¬(b :: rest).headD 0 = 43 := by simp; omega
  have hall : ((b :: rest).all fun x => decide (48 ≤ x ∧ x ≤ 57)) = true := by
    simp only [List.all_eq_true, decide_eq_true_eq]
    exact hd
  simp only [parseDec, hb43, if_false]
  simp only [decVal] at hv
  rw [if_pos ⟨h0, hall⟩, if_pos hv]
  rfl

theorem parseLoop_nil (n : Nat) : parseLoop n [] = ([], []) := by
  cases n <;> simp [parseLoop]

theorem tryParseOne_sgrPath (rest2 : List Nat) :
    tryParseOne (27 :: 91 :: 60 :: rest2) = parseSgrMouse (27 :: 91 :: 60 :: rest2) := by
  simp [tryParseOne, parseEscape, parseCsi]
  rw [if_neg (by omega), if_neg (by omega)]

theorem splitSemi_no (l : List Nat) (h : ∀ b ∈ l, ¬b = 59) : splitSemi l = [l] := by
  induction l with
  | nil => rfl
  | cons b t ih =>
    have hb := h b (List.mem_cons_self b t)
    have ht : ∀ x ∈ t, ¬x = 59 := fun x hx => h x (List.mem_cons_of_mem b hx)
    simp [splitSemi, hb, ih ht]

theorem splitSemi_append (l r : List Nat) (h : ∀ b ∈ l, ¬b = 59) :
    splitSemi (l ++ 59 :: r) = l :: splitSemi r := by
  induction l with
  | nil => simp [splitSemi]
  | cons b t ih =>
    have hb := h b (List.mem_cons_self b t)
    have ht : ∀ x ∈ t, ¬x = 59 := fun x hx => h x (List.mem_cons_of_mem b hx)
    simp [splitSemi, hb, ih ht]

theorem take_append_len (l r : List Nat) : (l ++ r).take l.length = l := by
  induction l <;> simp_all

theorem drop_append_add (l r : List Nat) (n : Nat) :
    (l ++ r).drop (l.length + n) = r.drop n := by
  induction l with
  | nil => simp
  | cons b t ih => simpa [Nat.succ_add] using ih

theorem findIdxQ_append_first (p : Nat → Bool) (l r : List Nat) (a : Nat)
    (hl : ∀ b ∈ l, p b = false) (ha : p a = true) :
    List.findIdx? p (l ++ a :: r) = some l.length := by
  induction l with
  | nil => simp [List.findIdx?_cons, ha]
  | cons b t ih =>
    have hb := hl b (List.mem_cons_self b t)
    have ht : ∀ x ∈ t, p x = false := fun x hx => hl x (List.mem_cons_of_mem b hx)
    simp [List.findIdx?_cons, hb, ih ht]

theorem parseSgrMouse_generic (X p1 p2 p3 : List Nat)
    (hmem : ∀ b ∈ X, ¬(b = 77 ∨ b = 109))
    (hsplit : splitSemi X = [p1, p2, p3]) :
    parseSgrMouse (27 :: 91 :: 60 :: (X ++ 77 :: [])) =
      TPOut.ev (InputEvent.mouse
        (((parseDec 65536 p2).getD 1) - 1) (((parseDec 65536 p3).getD 1) - 1)
        (decodeSgrButton ((parseDec 256 p1).getD 0)).1
        (decodeSgrButton ((parseDec 256 p1).getD 0)).2
        (decodeSgrModifiers ((parseDec 256 p1).getD 0))) [] := by
  have hfind : List.findIdx? (fun b => decide (b = 77 ∨ b = 109)) (X ++ 77 :: []) =
      some X.length :=
    findIdxQ_append_first _ X [] 77 (fun b hb => decide_eq_false (hmem b hb)) (by decide)
  have hgetD : (27 :: 91 :: 60 :: (X ++ 77 :: [])).getD (3 + X.length) 0 = 77 := by
    rw [show (3 : Nat) + X.length = (X.length + 2) + 1 from by omega]
    rw [List.getD_cons_succ]
    rw [show X.length + 2 = (X.length + 1) + 1 from by omega]
    rw [List.getD_cons_succ]
    rw [List.getD_cons_succ]
    rw [List.getD_append_right _ _ _ _ (by omega)]
    simp
  have hdropEnd : (27 :: 91 :: 60 :: (X ++ 77 :: [])).drop (3 + X.length + 1) = [] := by
    rw [show (3 : Nat) + X.length + 1 = 3 + (X.length + 1) from by omega]
    rw [show (27 : Nat) :: 91 :: 60 :: (X ++ 77 :: []) =
      [27, 91, 60] ++ (X ++ 77 :: []) from rfl]
    rw [show (3 : Nat) = ([27, 91, 60] : List Nat).length from rfl]
    rw [drop_append_add, drop_append_add]
    rfl
  simp only [parseSgrMouse, List.drop_succ_cons, List.drop_zero]
  rw [hfind]
  simp only [hgetD, hdropEnd, take_append_len, hsplit]
  simp
  omega

/-- C5 counterexample: a report with Px = 0 parses to x coordinate 0 (the
code saturates at zero), but the claimed value Px - 1 is the integer -1,
which 0 is not. -/
theorem sgr_mouse_zero_counterexample :
    (parseBytes [] [27, 91, 60, 48, 59, 48, 59, 53, 77]).1 =
      [InputEvent.mouse 0 4 .left .press {}] ∧ ¬((0 : Int) = (0 : Int) - 1) := by decide

/-- C5 (amended): for every SGR mouse report CSI < Pb ; Px ; Py M whose
decimal parameters satisfy 1 ≤ Px < 65536 and 1 ≤ Py < 65536 (and
Pb < 256), the parsed coordinates are exactly (Px - 1, Py - 1); a zero
parameter saturates to 0 instead. -/
theorem sgr_mouse_coords_amended (dp dx dy : List Nat) (pb px py : Nat)
    (hdp0 : dp ≠ []) (hdpd : ∀ b ∈ dp, 48 ≤ b ∧ b ≤ 57)
    (hdpv : decVal dp = pb) (hpb : pb < 256)
    (hdx0 : dx ≠ []) (hdxd : ∀ b ∈ dx, 48 ≤ b ∧ b ≤ 57)
    (hdxv : decVal dx = px) (hpx1 : 1 ≤ px) (hpx : px < 65536)
    (hdy0 : dy ≠ []) (hdyd : ∀ b ∈ dy, 48 ≤ b ∧ b ≤ 57)
    (hdyv : decVal dy = py) (hpy1 : 1 ≤ py) (hpy : py < 65536) :
    parseBytes [] (27 :: 91 :: 60 :: ((dp ++ (59 :: (dx ++ (59 :: dy)))) ++ [77])) =
      ([InputEvent.mouse (px - 1) (py - 1) (decodeSgrButton pb).1 (decodeSgrButton pb).2
          (decodeSgrModifiers pb)], []) := by
  have hX : ∀ b ∈ dp ++ (59 :: (dx ++ (59 :: dy))), ¬(b = 77 ∨ b = 109) := by
    intro b hb
    have : 48 ≤ b ∧ b ≤ 57 ∨ b = 59 := by
      rcases List.mem_append.mp hb with h1 | h2
      · exact Or.inl (hdpd b h1)
      · rcases List.mem_cons.mp h2 with rfl | h3
        · exact Or.inr rfl
        · rcases List.mem_append.mp h3 with h4 | h5
          · exact Or.inl (hdxd b h4)
          · rcases List.mem_cons.mp h5 with rfl | h6
            · exact Or.inr rfl
            · exact Or.inl (hdyd b h6)
    omega
  have hsplit : splitSemi (dp ++ (59 :: (dx ++ (59 :: dy)))) = [dp, dx, dy] := by
    rw [splitSemi_append _ _ (fun b hb => by have := hdpd b hb; omega)]
    rw [splitSemi_append _ _ (fun b hb => by have := hdxd b hb; omega)]
    rw [splitSemi_no _ (fun b hb => by have := hdyd b hb; omega)]
  have hone := parseSgrMouse_generic (dp ++ (59 :: (dx ++ (59 :: dy)))) dp dx dy hX hsplit
  rw [parseDec_digits 256 dp hdp0 hdpd (by omega),
      parseDec_digits 65536 dx hdx0 hdxd (by omega),
      parseDec_digits 65536 dy hdy0 hdyd (by omega)] at hone
  rw [hdpv, hdxv, hdyv] at hone
  simp only [Option.getD_some] at hone
  simp only [parseBytes, List.nil_append]
  rw [show ((27 : Nat) :: 91 :: 60 :: ((dp ++ (59 :: (dx ++ (59 :: dy)))) ++ [77])).length + 1 =
    (((dp ++ (59 :: (dx ++ (59 :: dy)))) ++ [77]).length + 3) + 1 from by simp]
  rw [parseLoop]
  simp only [List.isEmpty_cons, Bool.false_eq_true, if_false]
  rw [tryParseOne_sgrPath, hone]
  simp [parseLoop_nil]


theorem foldl_pres {α : Type} (P : Terminal → Prop) (f : Terminal → α → Terminal) :
    ∀ (l : List α), (∀ t a, a ∈ l → P t → P (f t a)) → ∀ t, P t → P (l.foldl f t) := by
  intro l
  induction l with
  | nil => intro _ t h; simpa
  | cons a as ih =>
    intro hf t h
    exact ih (fun t b hb => hf t b (List.mem_cons_of_mem a hb)) _
      (hf t a (List.mem_cons_self a as) h)

theorem inv_setScreenCell (t : Terminal) (y x : Nat) (c : Cell) (h : TermInv t)
    (hy : y < t.height) : TermInv (t.setScreenCell y x c) := by
  obtain ⟨hw, hh, hx, hyc, hlen, hrow⟩ := h
  refine ⟨hw, hh, hx, hyc, ?_, ?_⟩
  · simp [Terminal.setScreenCell, List.length_set, hlen]
  · intro r hr
    simp only [Terminal.setScreenCell] at hr
    rcases List.mem_or_eq_of_mem_set hr with h1 | h1
    · exact hrow r h1
    · subst h1
      rw [List.length_set]
      have hylen : y < t.screen.length := by omega
      rw [List.getD_eq_getElem t.screen [] hylen]
      exact hrow _ (List.getElem_mem hylen)

theorem inv_scrollUp (t : Terminal) (h : TermInv t) : TermInv t.scrollUp := by
  obtain ⟨hw, hh, hx, hyc, hlen, hrow⟩ := h
  cases hs : t.screen with
  | nil => simp only [Terminal.scrollUp, hs]; exact ⟨hw, hh, hx, hyc, hlen, hrow⟩
  | cons top rest =>
    simp only [Terminal.scrollUp, hs]
    refine ⟨hw, hh, hx, hyc, ?_, ?_⟩
    · rw [hs] at hlen
      simp at hlen ⊢
      omega
    · intro r hr
      rcases List.mem_append.mp hr with h1 | h1
      · exact hrow r (hs ▸ List.mem_cons_of_mem top h1)
      · rcases List.mem_singleton.mp h1 with rfl
        exact List.length_replicate _ _

theorem ctl_scrollUp (t : Terminal) : CtlEq t t.scrollUp := by
  cases hs : t.screen <;> simp [Terminal.scrollUp, hs, CtlEq]

theorem inv_scrollDown (t : Terminal) (h : TermInv t) : TermInv t.scrollDown := by
  obtain ⟨hw, hh, hx, hyc, hlen, hrow⟩ := h
  cases hs : t.screen with
  | nil => simp only [Terminal.scrollDown, hs]; exact ⟨hw, hh, hx, hyc, hlen, hrow⟩
  | cons top rest =>
    simp only [Terminal.scrollDown, hs]
    refine ⟨hw, hh, hx, hyc, ?_, ?_⟩
    · rw [hs] at hlen
      simp [List.length_dropLast] at hlen ⊢
      omega
    · intro r hr
      rcases List.mem_cons.mp hr with rfl | h1
      · exact List.length_replicate _ _
      · exact hrow r (hs ▸ List.dropLast_subset _ h1)

theorem ctl_scrollDown (t : Terminal) : CtlEq t t.scrollDown := by
  cases hs : t.screen <;> simp [Terminal.scrollDown, hs, CtlEq]

theorem inv_newline (t : Terminal) (h : TermInv t) : TermInv t.newline := by
  by_cases hc : t.cursorY < t.height - 1
  · obtain ⟨hw, hh, hx, hyc, hlen, hrow⟩ := h
    simp only [Terminal.newline, hc, if_true]
    exact ⟨hw, hh, hx, (by omega : t.cursorY + 1 < t.height), hlen, hrow⟩
  · simp only [Terminal.newline, hc, if_false]
    exact inv_scrollUp t h

theorem newline_ctl (t : Terminal) : (t.newline).width = t.width ∧
    (t.newline).height = t.height ∧ (t.newline).cursorX = t.cursorX ∧
    (t.newline).savedCursor = t.savedCursor := by
  by_cases hc : t.cursorY < t.height - 1
  · simp [Terminal.newline, hc]
  · simp only [Terminal.newline, hc, if_false]
    exact ⟨(ctl_scrollUp t).1, (ctl_scrollUp t).2.1, (ctl_scrollUp t).2.2.1,
      (ctl_scrollUp t).2.2.2.2⟩

theorem inv_putChar (t : Terminal) (ch : Nat) (h : TermInv t) : TermInv (t.putChar ch) := by
  have h1 : TermInv (if t.cursorX ≥ t.width then Terminal.newline { t with cursorX := 0 } else t) := by
    split
    · apply inv_newline
      obtain ⟨hw, hh, hx, hyc, hlen, hrow⟩ := h
      exact ⟨hw, hh, Nat.zero_le _, hyc, hlen, hrow⟩
    · exact h
  simp only [Terminal.putChar]
  generalize hgen : (if t.cursorX ≥ t.width then Terminal.newline { t with cursorX := 0 } else t) = t1 at h1 ⊢
  split
  · rename_i hg
    obtain ⟨hg1, hg2⟩ := hg
    obtain ⟨hw, hh, hx, hyc, hlen, hrow⟩ := inv_setScreenCell t1 t1.cursorY t1.cursorX
      { char := ch, fg := t1.fg, bg := t1.bg, attrs := t1.attrs, dirty := true } h1 hg1
    refine ⟨hw, hh, ?_, hyc, hlen, hrow⟩
    simp only [Terminal.setScreenCell]
    omega
  · exact h1

theorem ctlEq_refl (t : Terminal) : CtlEq t t := ⟨rfl, rfl, rfl, rfl, rfl⟩

theorem ctlEq_trans (t1 t2 t3 : Terminal) (a : CtlEq t1 t2) (b : CtlEq t2 t3) : CtlEq t1 t3 := by
  obtain ⟨a1, a2, a3, a4, a5⟩ := a
  obtain ⟨b1, b2, b3, b4, b5⟩ := b
  exact ⟨by rw [b1, a1], by rw [b2, a2], by rw [b3, a3], by rw [b4, a4], by rw [b5, a5]⟩

theorem inv_of_ctl_screen (t t' : Terminal) (hscr : t'.screen = t.screen) (c : CtlEq t t')
    (h : TermInv t) : TermInv t' := by
  obtain ⟨cw, ch, cx, cy, _⟩ := c
  obtain ⟨hw, hh, hx, hy, hlen, hrow⟩ := h
  rw [TermInv, cw, ch, cx, cy, hscr]
  exact ⟨hw, hh, hx, hy, hlen, hrow⟩

theorem invS_of_ctl (t t' : Terminal) (h : TermInv t') (c : CtlEq t t')
    (hs : ∀ p, t.savedCursor = some p → p.1 ≤ t.width ∧ p.2 < t.height) : TermInvS t' := by
  obtain ⟨cw, ch, _, _, cs⟩ := c
  refine ⟨h, fun p hp => ?_⟩
  rw [cs] at hp
  rw [cw, ch]
  exact hs p hp

theorem inv_eraseLineRight (t : Terminal) (h : TermInv t) :
    TermInv t.eraseLineRight ∧ CtlEq t t.eraseLineRight := by
  rw [Terminal.eraseLineRight]
  refine foldl_pres (fun t' => TermInv t' ∧ CtlEq t t') _ _ (fun t' i _ hp => ?_) t
    ⟨h, ctlEq_refl t⟩
  exact ⟨inv_setScreenCell t' t'.cursorY _ _ hp.1 hp.1.2.2.2.1, hp.2⟩

theorem inv_eraseLineLeft (t : Terminal) (h : TermInv t) :
    TermInv t.eraseLineLeft ∧ CtlEq t t.eraseLineLeft := by
  rw [Terminal.eraseLineLeft]
  refine foldl_pres (fun t' => TermInv t' ∧ CtlEq t t') _ _ (fun t' i _ hp => ?_) t
    ⟨h, ctlEq_refl t⟩
  exact ⟨inv_setScreenCell t' t'.cursorY _ _ hp.1 hp.1.2.2.2.1, hp.2⟩

theorem inv_eraseLine (t : Terminal) (h : TermInv t) :
    TermInv t.eraseLine ∧ CtlEq t t.eraseLine := by
  rw [Terminal.eraseLine]
  refine foldl_pres (fun t' => TermInv t' ∧ CtlEq t t') _ _ (fun t' i _ hp => ?_) t
    ⟨h, ctlEq_refl t⟩
  exact ⟨inv_setScreenCell t' t'.cursorY _ _ hp.1 hp.1.2.2.2.1, hp.2⟩

theorem inv_eraseAll (t : Terminal) (h : TermInv t) :
    TermInv t.eraseAll ∧ CtlEq t t.eraseAll := by
  rw [Terminal.eraseAll]
  refine foldl_pres (fun t' => TermInv t' ∧ CtlEq t t') _ _ (fun t' y hy hp => ?_) t
    ⟨h, ctlEq_refl t⟩
  have hyh : y < t'.height := by
    have h1 := List.mem_range.mp hy
    have h2 := hp.2.2.1
    omega
  refine foldl_pres (fun t2 => TermInv t2 ∧ CtlEq t t2) _ _ (fun t2 x hx hp2 => ?_) t' hp
  have hyh2 : y < t2.height := by
    have e1 : t2.height = t.height := hp2.2.2.1
    have e2 : t'.height = t.height := hp.2.2.1
    omega
  exact ⟨inv_setScreenCell t2 y _ _ hp2.1 hyh2, hp2.2⟩

theorem inv_eraseBelow (t : Terminal) (h : TermInv t) :
    TermInv t.eraseBelow ∧ CtlEq t t.eraseBelow := by
  rw [Terminal.eraseBelow]
  obtain ⟨h1, c1⟩ := inv_eraseLineRight t h
  have hmain : ∀ t0 : Terminal, TermInv t0 → CtlEq t t0 →
      TermInv ((List.range (t0.height - (t0.cursorY + 1))).foldl
        (fun t dy => (List.range t.width).foldl
          (fun t x => t.setScreenCell (t.cursorY + 1 + dy) x t.blankCell) t) t0) ∧
      CtlEq t ((List.range (t0.height - (t0.cursorY + 1))).foldl
        (fun t dy => (List.range t.width).foldl
          (fun t x => t.setScreenCell (t.cursorY + 1 + dy) x t.blankCell) t) t0) := by
    intro t0 h0 c0
    refine foldl_pres (fun t' => TermInv t' ∧ CtlEq t t') _ _ (fun t' dy hdy hp => ?_) t0 ⟨h0, c0⟩
    have hdy2 := List.mem_range.mp hdy
    refine foldl_pres (fun t2 => TermInv t2 ∧ CtlEq t t2) _ _ (fun t2 x hx hp2 => ?_) t' hp
    have hyb : t2.cursorY + 1 + dy < t2.height := by
      have e1 : t2.height = t.height := hp2.2.2.1
      have e2 : t2.cursorY = t.cursorY := hp2.2.2.2.2.1
      have e3 : t0.height = t.height := c0.2.1
      have e4 : t0.cursorY = t.cursorY := c0.2.2.2.1
      omega
    exact ⟨inv_setScreenCell t2 _ _ _ hp2.1 hyb, hp2.2⟩
  exact hmain t.eraseLineRight h1 c1

theorem inv_eraseAbove (t : Terminal) (h : TermInv t) :
    TermInv t.eraseAbove ∧ CtlEq t t.eraseAbove := by
  rw [Terminal.eraseAbove]
  have hmain : TermInv ((List.range t.cursorY).foldl
      (fun t y => (List.range t.width).foldl (fun t x => t.setScreenCell y x t.blankCell) t) t) ∧
      CtlEq t ((List.range t.cursorY).foldl
      (fun t y => (List.range t.width).foldl (fun t x => t.setScreenCell y x t.blankCell) t) t) := by
    refine foldl_pres (fun t' => TermInv t' ∧ CtlEq t t') _ _ (fun t' y hy hp => ?_) t
      ⟨h, ctlEq_refl t⟩
    have hy2 := List.mem_range.mp hy
    refine foldl_pres (fun t2 => TermInv t2 ∧ CtlEq t t2) _ _ (fun t2 x hx hp2 => ?_) t' hp
    have hyb : y < t2.height := by
      have e1 : t2.height = t.height := hp2.2.2.1
      have := h.2.2.2.1
      omega
    exact ⟨inv_setScreenCell t2 y _ _ hp2.1 hyb, hp2.2⟩
  obtain ⟨h1, c1⟩ := hmain
  obtain ⟨h2, c2⟩ := inv_eraseLineLeft _ h1
  exact ⟨h2, ctlEq_trans _ _ _ c1 c2⟩

theorem invS_resetTerm (t : Terminal) (h : TermInv t) : TermInvS t.resetTerm := by
  rw [Terminal.resetTerm]
  obtain ⟨hw, hh, hx, hy, hlen, hrow⟩ := h
  have h0 : TermInv { t with cursorX := 0, cursorY := 0, fg := Color.white, bg := Color.black, attrs := ({} : Attrs), savedCursor := none } :=
    ⟨hw, hh, Nat.zero_le _, hh, hlen, hrow⟩
  obtain ⟨h1, c1⟩ := inv_eraseAll _ h0
  refine ⟨h1, fun p hp => ?_⟩
  rw [c1.2.2.2.2] at hp
  simp at hp

theorem sgrApply_ctl (t : Terminal) (p : Nat) :
    (sgrApply t p).screen = t.screen ∧ CtlEq t (sgrApply t p) :=
  ⟨rfl, rfl, rfl, rfl, rfl, rfl⟩

theorem sgrLoop_ctl (t : Terminal) (l : List Nat) :
    (sgrLoop t l).screen = t.screen ∧ CtlEq t (sgrLoop t l) := by
  induction t, l using sgrLoop.induct with
  | case1 t => exact ⟨rfl, ctlEq_refl _⟩
  | case2 t cmd h => rcases h with rfl | rfl <;> exact ⟨rfl, ctlEq_refl _⟩
  | case3 t cmd h p1 ih =>
    obtain ⟨ihs, ihc⟩ := ih
    rcases h with rfl | rfl <;> exact ⟨ihs, ihc⟩
  | case4 t p2 rest2 h ih =>
    obtain ⟨ihs, ihc⟩ := ih
    exact ⟨ihs, ctlEq_trans _ _ _ ⟨rfl, rfl, rfl, rfl, rfl⟩ ihc⟩
  | case5 t cmd h p2 rest2 hne ih =>
    obtain ⟨ihs, ihc⟩ := ih
    rcases h with h38 | rfl
    · exact absurd h38 hne
    · exact ⟨ihs, ctlEq_trans _ _ _ ⟨rfl, rfl, rfl, rfl, rfl⟩ ihc⟩
  | case6 t cmd h p1 p2 rest2 hp1 ih =>
    obtain ⟨ihs, ihc⟩ := ih
    rcases h with rfl | rfl <;>
      (simp only [sgrLoop]
       rw [if_pos (by simp)]
       rw [if_neg hp1]
       exact ⟨ihs, ihc⟩)
  | case7 t cmd rest2 h ih =>
    obtain ⟨ihs, ihc⟩ := ih
    rw [sgrLoop.eq_def]
    dsimp only
    rw [if_neg h]
    exact ⟨ihs, ctlEq_trans _ _ _ ⟨rfl, rfl, rfl, rfl, rfl⟩ ihc⟩

theorem processSgr_ctl (t : Terminal) (params : List Nat) :
    (t.processSgr params).screen = t.screen ∧ CtlEq t (t.processSgr params) := by
  rw [Terminal.processSgr]
  split
  · exact ⟨rfl, rfl, rfl, rfl, rfl, rfl⟩
  · exact sgrLoop_ctl t params

/-- C9: processing ESC [ 6 n in the Normal state of a non-raw terminal
appends exactly the bytes ESC [ row ; col R (1-indexed cursor position) to
the response queue, leaving cursor and screen untouched; and a fresh 80x24
terminal fed ESC[2J ESC[1;1H Hello CR LF ESC[6n ends with the cursor at
(0, 1) and the queue holding the bytes of ESC[2;1R. -/
theorem dsr_cursor_report :
    (∀ t : Terminal, t.parserState = TermPState.normal → ¬t.termType = .raw →
      (t.processData [27, 91, 54, 110]).responseQueue =
        t.responseQueue ++ [[27, 91] ++ decBytes (t.cursorY + 1) ++ [59] ++ decBytes (t.cursorX + 1) ++ [82]] ∧
      (t.processData [27, 91, 54, 110]).cursorX = t.cursorX ∧
      (t.processData [27, 91, 54, 110]).cursorY = t.cursorY ∧
      (t.processData [27, 91, 54, 110]).screen = t.screen) ∧
    ((Terminal.new "t" 80 24 .ansi).processData
      [27, 91, 50, 74, 27, 91, 49, 59, 49, 72, 72, 101, 108, 108, 111, 13, 10, 27, 91, 54, 110]).cursorX = 0 ∧
    ((Terminal.new "t" 80 24 .ansi).processData
      [27, 91, 50, 74, 27, 91, 49, 59, 49, 72, 72, 101, 108, 108, 111, 13, 10, 27, 91, 54, 110]).cursorY = 1 ∧
    ((Terminal.new "t" 80 24 .ansi).processData
      [27, 91, 50, 74, 27, 91, 49, 59, 49, 72, 72, 101, 108, 108, 111, 13, 10, 27, 91, 54, 110]).responseQueue =
      [[27, 91, 50, 59, 49, 82]] := by
  refine ⟨?_, rfl, rfl, rfl⟩
  intro t hn htt
  have e1 : t.processByte 27 = { t with parserState := .escape, escBuffer := [] } := by
    simp [Terminal.processByte, hn]
  have e2 : Terminal.processByte { t with parserState := .escape, escBuffer := [] } 91 =
      { t with parserState := .csi, escBuffer := [] } := by
    simp [Terminal.processByte]
  have e3 : Terminal.processByte { t with parserState := .csi, escBuffer := [] } 54 =
      { t with parserState := .csi, escBuffer := [54] } := by
    simp [Terminal.processByte]
  have hparam : (splitSemi ([54] : List Nat)).map csiParam = [6] := by decide
  have e5 : Terminal.executeCsi { t with parserState := .csi, escBuffer := [54] } 110 =
      { t with parserState := .csi, escBuffer := [54], responseQueue := t.responseQueue ++ [[27, 91] ++ decBytes (t.cursorY + 1) ++ [59] ++ decBytes (t.cursorX + 1) ++ [82]] } := by
    simp only [Terminal.executeCsi]
    norm_num [hparam]
  have e4 : Terminal.processByte { t with parserState := .csi, escBuffer := [54] } 110 =
      { t with parserState := .normal, escBuffer := [54], responseQueue := t.responseQueue ++ [[27, 91] ++ decBytes (t.cursorY + 1) ++ [59] ++ decBytes (t.cursorX + 1) ++ [82]] } := by
    simp only [Terminal.processByte]
    norm_num [e5]
  have hfold : t.processData [27, 91, 54, 110] =
      { t with parserState := .normal, escBuffer := [54], responseQueue := t.responseQueue ++ [[27, 91] ++ decBytes (t.cursorY + 1) ++ [59] ++ decBytes (t.cursorX + 1) ++ [82]], dirty := true } := by
    rw [Terminal.processData, if_neg htt]
    rw [List.foldl_cons, e1, List.foldl_cons, e2, List.foldl_cons, e3, List.foldl_cons, e4,
      List.foldl_nil]
  rw [hfold]
  exact ⟨rfl, rfl, rfl, rfl⟩

/-- C9 witness: the device status report on a concrete 3 by 3 terminal. -/
theorem dsr_cursor_report_witness :
    ((Terminal.new "x" 3 3 .ansi).processData [27, 91, 54, 110]).responseQueue =
      (Terminal.new "x" 3 3 .ansi).responseQueue ++
        [[27, 91] ++ decBytes ((Terminal.new "x" 3 3 .ansi).cursorY + 1) ++ [59] ++
          decBytes ((Terminal.new "x" 3 3 .ansi).cursorX + 1) ++ [82]] :=
  (dsr_cursor_report.1 (Terminal.new "x" 3 3 .ansi) rfl (by decide)).1

/-- C5 witness: CSI < 0 ; 10 ; 5 M parses to coordinates (9, 4). -/
theorem sgr_mouse_coords_amended_witness :
    parseBytes [] (27 :: 91 :: 60 :: (([48] ++ (59 :: ([49, 48] ++ (59 :: [53])))) ++ [77])) =
      ([InputEvent.mouse 9 4 (decodeSgrButton 0).1 (decodeSgrButton 0).2
          (decodeSgrModifiers 0)], []) :=
  sgr_mouse_coords_amended [48] [49, 48] [53] 0 10 5 (by decide) (by decide) (by decide)
    (by decide) (by decide) (by decide) (by decide) (by decide) (by decide) (by decide)
    (by decide) (by decide) (by decide) (by decide)

set_option maxHeartbeats 2000000 in
theorem invS_executeCsi (t : Terminal) (fb : Nat) (h : TermInvS t) : TermInvS (t.executeCsi fb) := by
  obtain ⟨hInv, hSaved⟩ := h
  obtain ⟨hw, hh, hx, hy, hlen, hrow⟩ := hInv
  have hInv : TermInv t := ⟨hw, hh, hx, hy, hlen, hrow⟩
  rw [Terminal.executeCsi]
  by_cases h1 : fb = 65
  · rw [if_pos h1]
    refine ⟨⟨hw, hh, hx, ?_, hlen, hrow⟩, hSaved⟩
    dsimp only
    omega
  rw [if_neg h1]
  by_cases h2 : fb = 66
  · rw [if_pos h2]
    refine ⟨⟨hw, hh, hx, ?_, hlen, hrow⟩, hSaved⟩
    dsimp only
    simp only [Nat.min_def]
    split <;> omega
  rw [if_neg h2]
  by_cases h3 : fb = 67
  · rw [if_pos h3]
    refine ⟨⟨hw, hh, ?_, hy, hlen, hrow⟩, hSaved⟩
    dsimp only
    simp only [Nat.min_def]
    split <;> omega
  rw [if_neg h3]
  by_cases h4 : fb = 68
  · rw [if_pos h4]
    refine ⟨⟨hw, hh, ?_, hy, hlen, hrow⟩, hSaved⟩
    dsimp only
    omega
  rw [if_neg h4]
  by_cases h5 : fb = 69
  · rw [if_pos h5]
    refine ⟨⟨hw, hh, Nat.zero_le _, ?_, hlen, hrow⟩, hSaved⟩
    dsimp only
    simp only [Nat.min_def]
    split <;> omega
  rw [if_neg h5]
  by_cases h6 : fb = 70
  · rw [if_pos h6]
    refine ⟨⟨hw, hh, Nat.zero_le _, ?_, hlen, hrow⟩, hSaved⟩
    dsimp only
    omega
  rw [if_neg h6]
  by_cases h7 : fb = 71
  · rw [if_pos h7]
    refine ⟨⟨hw, hh, ?_, hy, hlen, hrow⟩, hSaved⟩
    dsimp only
    simp only [Nat.min_def]
    split <;> omega
  rw [if_neg h7]
  by_cases h8 : fb = 72 ∨ fb = 102
  · rw [if_pos h8]
    refine ⟨⟨hw, hh, ?_, ?_, hlen, hrow⟩, hSaved⟩ <;>
      (dsimp only
       simp only [Nat.min_def]
       split <;> omega)
  rw [if_neg h8]
  by_cases h9 : fb = 74
  · rw [if_pos h9]
    dsimp only
    split_ifs
    · exact invS_of_ctl t _ (inv_eraseBelow t hInv).1 (inv_eraseBelow t hInv).2 hSaved
    · exact invS_of_ctl t _ (inv_eraseAbove t hInv).1 (inv_eraseAbove t hInv).2 hSaved
    · exact invS_of_ctl t _ (inv_eraseAll t hInv).1 (inv_eraseAll t hInv).2 hSaved
    · exact ⟨hInv, hSaved⟩
  rw [if_neg h9]
  by_cases h10 : fb = 75
  · rw [if_pos h10]
    dsimp only
    split_ifs
    · exact invS_of_ctl t _ (inv_eraseLineRight t hInv).1 (inv_eraseLineRight t hInv).2 hSaved
    · exact invS_of_ctl t _ (inv_eraseLineLeft t hInv).1 (inv_eraseLineLeft t hInv).2 hSaved
    · exact invS_of_ctl t _ (inv_eraseLine t hInv).1 (inv_eraseLine t hInv).2 hSaved
    · exact ⟨hInv, hSaved⟩
  rw [if_neg h10]
  by_cases h11 : fb = 83
  · rw [if_pos h11]
    have hmain := foldl_pres (fun t' => TermInv t' ∧ CtlEq t t') (fun t _ => t.scrollUp)
      (List.range (Nat.max (((splitSemi t.escBuffer).map csiParam).getD 0 1) 1))
      (fun t' a _ hp => ⟨inv_scrollUp t' hp.1, ctlEq_trans _ _ _ hp.2 (ctl_scrollUp t')⟩)
      t ⟨hInv, ctlEq_refl t⟩
    exact invS_of_ctl t _ hmain.1 hmain.2 hSaved
  rw [if_neg h11]
  by_cases h12 : fb = 84
  · rw [if_pos h12]
    have hmain := foldl_pres (fun t' => TermInv t' ∧ CtlEq t t') (fun t _ => t.scrollDown)
      (List.range (Nat.max (((splitSemi t.escBuffer).map csiParam).getD 0 1) 1))
      (fun t' a _ hp => ⟨inv_scrollDown t' hp.1, ctlEq_trans _ _ _ hp.2 (ctl_scrollDown t')⟩)
      t ⟨hInv, ctlEq_refl t⟩
    exact invS_of_ctl t _ hmain.1 hmain.2 hSaved
  rw [if_neg h12]
  by_cases h13 : fb = 109
  · rw [if_pos h13]
    have hc := processSgr_ctl t ((splitSemi t.escBuffer).map csiParam)
    exact invS_of_ctl t _ (inv_of_ctl_screen t _ hc.1 hc.2 hInv) hc.2 hSaved
  rw [if_neg h13]
  by_cases h14 : fb = 115
  · rw [if_pos h14]
    refine ⟨hInv, fun p hp => ?_⟩
    have he : (t.cursorX, t.cursorY) = p := by simpa using hp
    rw [← he]
    exact ⟨hx, hy⟩
  rw [if_neg h14]
  by_cases h15 : fb = 117
  · rw [if_pos h15]
    cases hsc : t.savedCursor with
    | none => exact ⟨hInv, hSaved⟩
    | some c =>
      have hb := hSaved c hsc
      exact ⟨⟨hw, hh, hb.1, hb.2, hlen, hrow⟩, fun p hp => hSaved p (hsc.trans hp)⟩
  rw [if_neg h15]
  by_cases h16 : fb = 110
  · rw [if_pos h16]
    split_ifs
    · exact ⟨⟨hw, hh, hx, hy, hlen, hrow⟩, hSaved⟩
    · exact ⟨hInv, hSaved⟩
  rw [if_neg h16]
  exact ⟨hInv, hSaved⟩
theorem putChar_sctl (t : Terminal) (ch : Nat) : (t.putChar ch).width = t.width ∧
    (t.putChar ch).height = t.height ∧ (t.putChar ch).savedCursor = t.savedCursor := by
  have hstep : (if t.cursorX ≥ t.width then Terminal.newline { t with cursorX := 0 } else t).width = t.width ∧
      (if t.cursorX ≥ t.width then Terminal.newline { t with cursorX := 0 } else t).height = t.height ∧
      (if t.cursorX ≥ t.width then Terminal.newline { t with cursorX := 0 } else t).savedCursor = t.savedCursor := by
    split
    · exact ⟨(newline_ctl _).1, (newline_ctl _).2.1, (newline_ctl _).2.2.2⟩
    · exact ⟨rfl, rfl, rfl⟩
  simp only [Terminal.putChar]
  generalize hgen : (if t.cursorX ≥ t.width then Terminal.newline { t with cursorX := 0 } else t) = t1 at hstep ⊢
  split
  · exact hstep
  · exact hstep

theorem invS_newline (t : Terminal) (h : TermInvS t) : TermInvS t.newline := by
  obtain ⟨hI, hS⟩ := h
  refine ⟨inv_newline t hI, fun p hp => ?_⟩
  rw [(newline_ctl t).2.2.2] at hp
  rw [(newline_ctl t).1, (newline_ctl t).2.1]
  exact hS p hp

theorem invS_putChar (t : Terminal) (ch : Nat) (h : TermInvS t) : TermInvS (t.putChar ch) := by
  obtain ⟨hI, hS⟩ := h
  refine ⟨inv_putChar t ch hI, fun p hp => ?_⟩
  rw [(putChar_sctl t ch).2.2] at hp
  rw [(putChar_sctl t ch).1, (putChar_sctl t ch).2.1]
  exact hS p hp

set_option maxHeartbeats 1000000 in
theorem invS_processByte (t : Terminal) (b : Nat) (h : TermInvS t) : TermInvS (t.processByte b) := by
  obtain ⟨⟨hw, hh, hx, hy, hlen, hrow⟩, hSaved⟩ := h
  have hI : TermInv t := ⟨hw, hh, hx, hy, hlen, hrow⟩
  rw [Terminal.processByte.eq_def]
  split
  · -- normal state
    by_cases b1 : b = 0x1b
    · rw [if_pos b1]
      exact ⟨⟨hw, hh, hx, hy, hlen, hrow⟩, hSaved⟩
    rw [if_neg b1]
    by_cases b2 : b = 0x07
    · rw [if_pos b2]
      exact ⟨hI, hSaved⟩
    rw [if_neg b2]
    by_cases b3 : b = 0x08
    · rw [if_pos b3]
      split
      · exact ⟨⟨hw, hh, by dsimp only; omega, hy, hlen, hrow⟩, hSaved⟩
      · exact ⟨hI, hSaved⟩
    rw [if_neg b3]
    by_cases b4 : b = 0x09
    · rw [if_pos b4]
      dsimp only
      refine ⟨⟨hw, hh, ?_, hy, hlen, hrow⟩, hSaved⟩
      dsimp only
      split <;> omega
    rw [if_neg b4]
    by_cases b5 : b = 0x0a
    · rw [if_pos b5]
      exact invS_newline t ⟨hI, hSaved⟩
    rw [if_neg b5]
    by_cases b6 : b = 0x0d
    · rw [if_pos b6]
      exact ⟨⟨hw, hh, Nat.zero_le _, hy, hlen, hrow⟩, hSaved⟩
    rw [if_neg b6]
    by_cases b7 : (0x20 ≤ b ∧ b ≤ 0x7e) ∨ (0x80 ≤ b ∧ b ≤ 0xff)
    · rw [if_pos b7]
      exact invS_putChar t b ⟨hI, hSaved⟩
    rw [if_neg b7]
    exact ⟨hI, hSaved⟩
  · -- escape state
    by_cases e1 : b = 91
    · rw [if_pos e1]
      exact ⟨⟨hw, hh, hx, hy, hlen, hrow⟩, hSaved⟩
    rw [if_neg e1]
    by_cases e2 : b = 93
    · rw [if_pos e2]
      exact ⟨⟨hw, hh, hx, hy, hlen, hrow⟩, hSaved⟩
    rw [if_neg e2]
    by_cases e3 : b = 55
    · rw [if_pos e3]
      refine ⟨⟨hw, hh, hx, hy, hlen, hrow⟩, fun p hp => ?_⟩
      have hp2 : some (t.cursorX, t.cursorY) = some p := hp
      obtain rfl := Option.some.inj hp2
      exact ⟨hx, hy⟩
    rw [if_neg e3]
    by_cases e4 : b = 56
    · rw [if_pos e4]
      cases hsc : t.savedCursor with
      | none => exact ⟨⟨hw, hh, hx, hy, hlen, hrow⟩, fun p hp => nomatch hp⟩
      | some c =>
        have hb := hSaved c hsc
        exact ⟨⟨hw, hh, hb.1, hb.2, hlen, hrow⟩, fun p hp => hSaved p (hsc.trans hp)⟩
    rw [if_neg e4]
    by_cases e5 : b = 68
    · rw [if_pos e5]
      obtain ⟨⟨n1, n2, n3, n4, n5, n6⟩, nS⟩ := invS_newline t ⟨hI, hSaved⟩
      exact ⟨⟨n1, n2, n3, n4, n5, n6⟩, nS⟩
    rw [if_neg e5]
    by_cases e6 : b = 69
    · rw [if_pos e6]
      have h0 : TermInvS { t with cursorX := 0 } :=
        ⟨⟨hw, hh, Nat.zero_le _, hy, hlen, hrow⟩, hSaved⟩
      obtain ⟨⟨n1, n2, n3, n4, n5, n6⟩, nS⟩ := invS_newline _ h0
      exact ⟨⟨n1, n2, n3, n4, n5, n6⟩, nS⟩
    rw [if_neg e6]
    by_cases e7 : b = 77
    · rw [if_pos e7]
      split
      · exact ⟨⟨hw, hh, hx, by dsimp only; omega, hlen, hrow⟩, hSaved⟩
      · exact ⟨⟨hw, hh, hx, hy, hlen, hrow⟩, hSaved⟩
    rw [if_neg e7]
    by_cases e8 : b = 99
    · rw [if_pos e8]
      obtain ⟨⟨r1, r2, r3, r4, r5, r6⟩, rS⟩ := invS_resetTerm t hI
      exact ⟨⟨r1, r2, r3, r4, r5, r6⟩, rS⟩
    rw [if_neg e8]
    exact ⟨⟨hw, hh, hx, hy, hlen, hrow⟩, hSaved⟩
  · -- csi state
    split
    · obtain ⟨⟨c1, c2, c3, c4, c5, c6⟩, cS⟩ := invS_executeCsi t b ⟨hI, hSaved⟩
      exact ⟨⟨c1, c2, c3, c4, c5, c6⟩, cS⟩
    · exact ⟨⟨hw, hh, hx, hy, hlen, hrow⟩, hSaved⟩
  · -- osc state
    split
    · exact ⟨⟨hw, hh, hx, hy, hlen, hrow⟩, hSaved⟩
    · exact ⟨⟨hw, hh, hx, hy, hlen, hrow⟩, hSaved⟩

theorem invS_processData (t : Terminal) (data : List Nat) (h : TermInvS t) :
    TermInvS (t.processData data) := by
  rw [Terminal.processData]
  split
  · dsimp only
    have hf := foldl_pres TermInvS
      (fun t b =>
        if 32 ≤ b ∧ b < 127 then t.putChar b
        else if b = 10 then t.newline
        else if b = 13 then { t with cursorX := 0 }
        else t) data
      (fun t2 a _ h2 => by
        dsimp only
        split
        · exact invS_putChar t2 a h2
        split
        · exact invS_newline t2 h2
        split
        · obtain ⟨⟨hw, hh, hx, hy, hlen, hrow⟩, hS⟩ := h2
          exact ⟨⟨hw, hh, Nat.zero_le _, hy, hlen, hrow⟩, hS⟩
        · exact h2) t h
    obtain ⟨⟨hw, hh, hx, hy, hlen, hrow⟩, hS⟩ := hf
    exact ⟨⟨hw, hh, hx, hy, hlen, hrow⟩, hS⟩
  · have hf := foldl_pres TermInvS Terminal.processByte data
      (fun t2 a _ h2 => invS_processByte t2 a h2) t h
    obtain ⟨⟨hw, hh, hx, hy, hlen, hrow⟩, hS⟩ := hf
    exact ⟨⟨hw, hh, hx, hy, hlen, hrow⟩, hS⟩

theorem inv_resizeTerm (t : Terminal) (w h : Nat) (hw : 1 ≤ w) (hh : 1 ≤ h) :
    TermInv (t.resizeTerm w h) := by
  rw [Terminal.resizeTerm, TermInv]
  refine ⟨hw, hh, ?_, ?_, ?_, ?_⟩
  · show Nat.min t.cursorX (w - 1) ≤ w
    simp only [Nat.min_def]
    split <;> omega
  · show Nat.min t.cursorY (h - 1) < h
    simp only [Nat.min_def]
    split <;> omega
  · simp
  · intro r hr
    simp only [List.mem_map, List.mem_range] at hr
    obtain ⟨y, _, rfl⟩ := hr
    simp

theorem invS_new (id : String) (w h : Nat) (tt : TerminalType) (hw : 1 ≤ w) (hh : 1 ≤ h) :
    TermInvS (Terminal.new id w h tt) := by
  refine ⟨⟨hw, hh, Nat.zero_le _, hh, ?_, ?_⟩, fun p hp => nomatch hp⟩
  · simp [Terminal.new]
  · intro r hr
    simp only [Terminal.new] at hr
    rw [List.eq_of_mem_replicate hr]
    simp [Terminal.new]

/-- C10 (amended): the cursor invariant cursor_x ≤ width and cursor_y < height
(strengthened for process_data with in-bounds saved cursors) holds after
construction with positive dimensions, is preserved by every process_data
call, and is re-established for the cursor by every resize to positive
dimensions — but resize does not re-clamp the saved cursor, so the original
claim fails on sequences that save the cursor, shrink, and restore. -/
theorem terminal_cursor_invariant_amended :
    (∀ (id : String) (w h : Nat) (tt : TerminalType), 1 ≤ w → 1 ≤ h →
      TermInvS (Terminal.new id w h tt)) ∧
    (∀ (t : Terminal) (data : List Nat), TermInvS t → TermInvS (t.processData data)) ∧
    (∀ (t : Terminal) (w h : Nat), 1 ≤ w → 1 ≤ h → TermInv (t.resizeTerm w h)) :=
  ⟨fun id w h tt hw hh => invS_new id w h tt hw hh,
   fun t data h => invS_processData t data h,
   fun t w h hw hh => inv_resizeTerm t w h hw hh⟩

/-- C10 counterexample: moving the cursor to row 3 of a 3x3 terminal, saving
it with ESC 7, resizing to 3x1 (a valid resize) and restoring with ESC 8
leaves cursor_y = 2 on a terminal of height 1, violating the claimed
invariant after a sequence of process_data and resize calls. -/
theorem terminal_cursor_invariant_counterexample :
    applyTermOps (Terminal.new "t" 3 3 .ansi)
        [.data [27, 91, 51, 59, 49, 72, 27, 55], .resize 3 1, .data [27, 56]] =
      staleRestoreTerminal ∧
    TermOp.ok (.resize 3 1) ∧
    staleRestoreTerminal.height = 1 ∧ staleRestoreTerminal.cursorY = 2 ∧
    ¬ staleRestoreTerminal.cursorY < staleRestoreTerminal.height :=
  ⟨rfl, ⟨by decide, by decide⟩, rfl, by decide, by decide⟩

/-- C10 witness: the amended invariant theorem applied to a concrete 3x3
terminal, a concrete ESC 7 byte sequence and a concrete 2x2 resize. -/
theorem terminal_cursor_invariant_amended_witness :
    TermInvS ((Terminal.new "t" 3 3 TerminalType.ansi).processData [27, 55]) ∧
    TermInv ((Terminal.new "t" 3 3 TerminalType.ansi).resizeTerm 2 2) :=
  ⟨terminal_cursor_invariant_amended.2.1 _ [27, 55]
     (terminal_cursor_invariant_amended.1 "t" 3 3 TerminalType.ansi (by decide) (by decide)),
   terminal_cursor_invariant_amended.2.2 _ 2 2 (by decide) (by decide)⟩

end APU
